import Mathlib

/-!
# ArenaFighter: state machine, vitality, perception and target selection

A shallow embedding of `UCPP_StateMachineBase` (`CPP_StateMachineBase.cpp`), of the vitality,
perception, target-selection and weapon-cycling members of `ACPP_CharacterBase`
(`CPP_CharacterBase.cpp`) and of `UCPP_PlayerAttackState` (`CPP_PlayerAttackState.cpp`).

Conventions of the embedding:

* a C++ object pointer is an `Option Nat`: `none` is `nullptr`, `some i` points at the
  object with identity `i`;
* Blueprint events and virtual hooks are opaque to the C++ code; a call is recorded, in
  order, in the list returned next to the new state;
* `float` values are idealised as rationals (no rounding, no NaN); `FLT_MAX` keeps its value;
* dereferencing a null pointer or a destroyed object is a failure: `none`, or, where the state
  reached before the failure matters, an `Outcome` with `returned := false`;
* on-screen debug messages and `UE_LOG` calls are left out, except for the `UE_LOG` arguments
  that dereference a pointer the function was handed or read from the sensed set
  (`HandleAnyDamage`, `CheckForLostSight`, `OnSeePawn`): these are evaluated in a build with
  logging, and not at all in a build compiled without it.
-/

namespace ArenaFighter

/-! ## State machine -/

/-- A `UCPP_StateBase*`. -/
abbrev StatePtr := Option Nat

/-- Hook calls made by `UCPP_StateMachineBase::SetState`, each with the value of `CurrentState`
that the hook observes when it runs. -/
inductive SMCall where
  | OnExit (s : Nat) (CurrentState : StatePtr)
  | OnStateChangedEvent (CurrentState : StatePtr)
  | OnEnter (s : Nat) (CurrentState : StatePtr)
deriving DecidableEq, Repr

/-- The data members of `UCPP_StateMachineBase` that `SetState` touches. -/
structure UCPP_StateMachineBase where
  CurrentState : StatePtr := none
deriving DecidableEq, Repr

/-- Embeds `if (CurrentState && CurrentState->IsValidLowLevel()) CurrentState->OnExit();` where
`live s` is what `IsValidLowLevel` returns for the state object `s` (engine-supplied). -/
def exitCurrent (live : Nat → Bool) (m : UCPP_StateMachineBase) : List SMCall :=
  match m.CurrentState with
  | some s => if live s then [SMCall.OnExit s m.CurrentState] else []
  | none => []

/-- Embeds `if (CurrentState && CurrentState->IsValidLowLevel()) CurrentState->OnEnter();` -/
def enterCurrent (live : Nat → Bool) (m : UCPP_StateMachineBase) : List SMCall :=
  match m.CurrentState with
  | some s => if live s then [SMCall.OnEnter s m.CurrentState] else []
  | none => []

/-- Embeds `UCPP_StateMachineBase::SetState`. -/
def SetState (live : Nat → Bool) (m : UCPP_StateMachineBase) (NewState : StatePtr) :
    UCPP_StateMachineBase × List SMCall :=
  if m.CurrentState = NewState then (m, [])
  else
    let t₁ := exitCurrent live m
    let m₁ : UCPP_StateMachineBase := { m with CurrentState := NewState }
    let t₂ := [SMCall.OnStateChangedEvent m₁.CurrentState]
    let t₃ := enterCurrent live m₁
    (m₁, t₁ ++ t₂ ++ t₃)

/-- A sequence of `SetState` calls, with the concatenated hook trace. -/
def runSetState (live : Nat → Bool) :
    UCPP_StateMachineBase → List StatePtr → UCPP_StateMachineBase × List SMCall
  | m, [] => (m, [])
  | m, s :: rest =>
    let r := SetState live m s
    let r' := runSetState live r.1 rest
    (r'.1, r.2 ++ r'.2)

/-- Bracketing check of a hook trace: `active` is the state that has been entered and not yet
exited. An `OnEnter` is accepted only when no state is active, an `OnExit s` only when `s` is
the active state. Returns the active state at the end, or `none` when the trace is rejected. -/
def bracketed : Option Nat → List SMCall → Option (Option Nat)
  | active, [] => some active
  | active, SMCall.OnStateChangedEvent _ :: t => bracketed active t
  | active, SMCall.OnEnter s _ :: t => if active = none then bracketed (some s) t else none
  | active, SMCall.OnExit s _ :: t => if active = some s then bracketed none t else none

/-! ## Character: engine interface -/

/-- An `FVector`, with rational components. -/
structure FVector where
  X : ℚ := 0
  Y : ℚ := 0
  Z : ℚ := 0
deriving DecidableEq

/-- Embeds `operator-` of `FVector`. -/
def FVector.sub (a b : FVector) : FVector :=
  { X := a.X - b.X, Y := a.Y - b.Y, Z := a.Z - b.Z }

/-- Embeds `FVector::DotProduct`. -/
def FVector.DotProduct (a b : FVector) : ℚ :=
  a.X * b.X + a.Y * b.Y + a.Z * b.Z

/-- Engine functions that the character code calls and the repository does not define. They are
parameters of the embedding: every theorem below holds for all of them.
* `Size`, `GetSafeNormal`: `FVector::Size` and `FVector::GetSafeNormal`;
* `ApplyDamage`: `UGameplayStatics::ApplyDamage`, seen from the damaged actor: the amount
  broadcast on `OnTakeAnyDamage` for a given base damage, or `none` when nothing is broadcast. -/
structure Engine where
  Size : FVector → ℚ
  GetSafeNormal : FVector → FVector
  ApplyDamage : ℚ → Option ℚ

/-- The value of `FLT_MAX`, `(2 - 2^(-23)) * 2^127`. -/
def FLT_MAX : ℚ := 340282346638528859811704183484516925440

/-- Modelled from the spec: `FMath::Clamp` is engine code outside the repository; this is its
definition `(X < Min) ? Min : (X < Max) ? X : Max`, the clamp to `[Min, Max]` of the spec. -/
def FMath.Clamp (X Min Max : ℚ) : ℚ :=
  if X < Min then Min else if X < Max then X else Max

/-- An `APawn*`. -/
abbrev PawnPtr := Option Nat

/-- What the character code reads from another pawn: its location and, when the pawn is an
`ACPP_CharacterBase` (so that `Cast<ACPP_CharacterBase>` is non-null), its `Health`. -/
structure PawnObject where
  Location : FVector := {}
  asCharacterBase : Option ℚ := none
deriving DecidableEq

/-- The pawns of the level: `pawn i` is the object with identity `i`, or `none` when that
object has been destroyed (a pointer to it dangles). -/
structure World where
  pawn : Nat → Option PawnObject

/-- Embeds `P->IsValidLowLevel()` for a pawn pointer: false on `nullptr`, otherwise whether the object
is live. -/
def World.IsValidLowLevel (W : World) : PawnPtr → Bool
  | none => false
  | some i => (W.pawn i).isSome

/-- The argument `*P->GetName()` of a `UE_LOG` call: evaluated only in a build with logging
(`logging = true`), where it fails on `nullptr` and on a destroyed object. -/
def logName (logging : Bool) (W : World) (P : PawnPtr) : Option Unit :=
  if logging then
    match P with
    | none => none
    | some i => if (W.pawn i).isSome then some () else none
  else some ()

/-- How a call ends: it returns (`returned = true`), or it stops at the dereference of an
invalid pointer. Either way `val` is what the call had done by then: the state reached and the
events fired. -/
structure Outcome (α : Type) where
  val : α
  returned : Bool

/-! ## Character: data and notifications -/

/-- Blueprint events and dispatchers fired by the `ACPP_CharacterBase` members embedded here. -/
inductive Notify where
  | OnHealthChanged (InHealth : ℚ)
  | OnDie
  | OnDieDispatcher
  | OnSelectedPawnChanged
  | OnDetectedPawnsChanged
deriving DecidableEq

/-- Data members of `ACPP_CharacterBase` used by the embedded members. `DetectedPawns` is the
`TSet<APawn*>` in its iteration order; `ActorLocation` and `ActorForwardVector` are what
`GetActorLocation()` and `GetActorForwardVector()` return for the character. `PawnSensing` is
the `UPawnSensingComponent*`: `none` is `nullptr`, `some sees` a component whose
`CouldSeePawn` answers `sees i` for the pawn `i`. `Weapons` is the `TArray` of weapon classes
(`none` is a null class), `EquippedWeapon` the `ACPP_Weapon*`. -/
structure ACPP_CharacterBase where
  Health : ℚ := 100
  MaxHealth : ℚ := 100
  DetectedPawns : List PawnPtr := []
  SelectedPawn : PawnPtr := none
  ActorLocation : FVector := {}
  ActorForwardVector : FVector := { X := 1 }
  PawnSensing : Option (Nat → Bool) := none
  Weapons : List (Option Nat) := []
  CurrentWeaponIndex : Int := 0
  EquippedWeapon : Option Nat := none

/-! ## Character: vitality -/

/-- Embeds `ACPP_CharacterBase::IsDead`. -/
def IsDead (c : ACPP_CharacterBase) : Bool :=
  if c.Health ≤ 0 then true else false

/-- Embeds `ACPP_CharacterBase::AddHealth`. -/
def AddHealth (c : ACPP_CharacterBase) (add : ℚ) : ACPP_CharacterBase × List Notify :=
  let c₁ := { c with Health := c.Health + add }
  let c₂ := { c₁ with Health := FMath.Clamp c₁.Health 0 c₁.MaxHealth }
  (c₂, [Notify.OnHealthChanged c₂.Health])

/-- Embeds `ACPP_CharacterBase::Die`. -/
def Die (c : ACPP_CharacterBase) : ACPP_CharacterBase × List Notify :=
  (c, [Notify.OnDie, Notify.OnDieDispatcher])

/-- Embeds `ACPP_CharacterBase::HandleAnyDamage` (the handler bound to `OnTakeAnyDamage`).
`DamagedActor` and `DamageCauser` are the actor pointers of the signature (an actor is live
when `W` has it); the `UE_LOG` between `AddHealth` and the test `Health <= 0` evaluates
`*DamagedActor->GetName()` and `*DamageCauser->GetName()`. `DamageType` and `InstigatedBy` are
not used by the body. -/
def HandleAnyDamage (logging : Bool) (W : World) (c : ACPP_CharacterBase)
    (DamagedActor : PawnPtr) (Damage : ℚ) (DamageCauser : PawnPtr) :
    Outcome (ACPP_CharacterBase × List Notify) :=
  let r₁ := AddHealth c (-Damage)
  match logName logging W DamagedActor, logName logging W DamageCauser with
  | some _, some _ =>
    if r₁.1.Health ≤ 0 then
      let r₂ := Die r₁.1
      { val := (r₂.1, r₁.2 ++ r₂.2), returned := true }
    else { val := r₁, returned := true }
  | _, _ => { val := r₁, returned := false }

/-- Embeds `ACPP_CharacterBase::TakeAttack`: `ApplyDamage(this, damage, GetController(),
attacker, ...)` is called only while the character is not dead; the engine then delivers the
damage to `HandleAnyDamage` with `this` as `DamagedActor` and `attacker` as `DamageCauser`.
`self` is the identity of `this`. -/
def TakeAttack (E : Engine) (logging : Bool) (W : World) (self : Nat) (c : ACPP_CharacterBase)
    (attacker : PawnPtr) (damage : ℚ) : Outcome (ACPP_CharacterBase × List Notify) :=
  if !IsDead c then
    match E.ApplyDamage damage with
    | some Damage => HandleAnyDamage logging W c (some self) Damage attacker
    | none => { val := (c, []), returned := true }
  else { val := (c, []), returned := true }

/-- A damage event delivered to `HandleAnyDamage`. -/
structure DamageEvent where
  DamagedActor : PawnPtr
  Damage : ℚ
  DamageCauser : PawnPtr

/-- A sequence of damage events delivered to `HandleAnyDamage`; it stops at the first call
that does not return. -/
def runHandleAnyDamage (logging : Bool) (W : World) :
    ACPP_CharacterBase → List DamageEvent → Outcome (ACPP_CharacterBase × List Notify)
  | c, [] => { val := (c, []), returned := true }
  | c, e :: rest =>
    let r := HandleAnyDamage logging W c e.DamagedActor e.Damage e.DamageCauser
    if r.returned then
      let r' := runHandleAnyDamage logging W r.val.1 rest
      { val := (r'.val.1, r.val.2 ++ r'.val.2), returned := r'.returned }
    else r

/-- A sequence of attacks `(attacker, damage)` delivered to `TakeAttack`; it stops at the first
call that does not return. -/
def runTakeAttack (E : Engine) (logging : Bool) (W : World) (self : Nat) :
    ACPP_CharacterBase → List (PawnPtr × ℚ) → Outcome (ACPP_CharacterBase × List Notify)
  | c, [] => { val := (c, []), returned := true }
  | c, a :: rest =>
    let r := TakeAttack E logging W self c a.1 a.2
    if r.returned then
      let r' := runTakeAttack E logging W self r.val.1 rest
      { val := (r'.val.1, r.val.2 ++ r'.val.2), returned := r'.returned }
    else r

/-! ## Character: target selection -/

/-- Embeds `DirectionToPawn.Size()` for a pawn object, as computed in the loop of `TrySelectPawn`. -/
def DistanceToPawn (E : Engine) (CharacterLocation : FVector) (obj : PawnObject) : ℚ :=
  let DirectionToPawn := obj.Location.sub CharacterLocation
  E.Size DirectionToPawn

/-- Embeds `FVector::DotProduct(CharacterForward, DirectionToPawn.GetSafeNormal())` for a pawn object,
as computed in the loop of `TrySelectPawn`. -/
def DotProductToPawn (E : Engine) (CharacterLocation CharacterForward : FVector)
    (obj : PawnObject) : ℚ :=
  let DirectionToPawn := obj.Location.sub CharacterLocation
  FVector.DotProduct CharacterForward (E.GetSafeNormal DirectionToPawn)

/-- The locals `ClosestPawn`, `ClosestDistance`, `MaxDotProduct` of `TrySelectPawn`, with their
initial values. -/
structure Selection where
  ClosestPawn : PawnPtr := none
  ClosestDistance : ℚ := FLT_MAX
  MaxDotProduct : ℚ := -FLT_MAX
deriving DecidableEq

/-- One iteration of the loop of `TrySelectPawn`. `none` is a failure: the pawn has been
destroyed, or `Cast<ACPP_CharacterBase>` returned `nullptr` and `IsDead` is called on it. -/
def selectStep (E : Engine) (W : World) (CharacterLocation CharacterForward : FVector)
    (acc : Selection) (DetectedPawn : PawnPtr) : Option Selection :=
  match DetectedPawn with
  | none => some acc
  | some i =>
    match W.pawn i with
    | none => none
    | some obj =>
      match obj.asCharacterBase with
      | none => none
      | some Health =>
        if Health ≤ 0 then some acc
        else
          let DistanceToPawn := DistanceToPawn E CharacterLocation obj
          let DotProduct := DotProductToPawn E CharacterLocation CharacterForward obj
          if DotProduct > 0 ∧ DotProduct > acc.MaxDotProduct
              ∧ DistanceToPawn < acc.ClosestDistance then
            some { MaxDotProduct := DotProduct, ClosestPawn := some i,
                   ClosestDistance := DistanceToPawn }
          else some acc

/-- The loop of `TrySelectPawn` over the pawns still to visit. -/
def selectLoop (E : Engine) (W : World) (CharacterLocation CharacterForward : FVector) :
    Selection → List PawnPtr → Option Selection
  | acc, [] => some acc
  | acc, p :: rest =>
    match selectStep E W CharacterLocation CharacterForward acc p with
    | none => none
    | some acc' => selectLoop E W CharacterLocation CharacterForward acc' rest

/-- The selection update at the end of `TrySelectPawn`, for the locals left by the loop. -/
def updateSelection (W : World) (c : ACPP_CharacterBase) (sel : Selection) :
    ACPP_CharacterBase × List Notify :=
  if W.IsValidLowLevel sel.ClosestPawn then
    if sel.ClosestPawn ≠ c.SelectedPawn then
      ({ c with SelectedPawn := sel.ClosestPawn }, [Notify.OnSelectedPawnChanged])
    else (c, [])
  else
    if c.SelectedPawn ≠ none then
      ({ c with SelectedPawn := none }, [Notify.OnSelectedPawnChanged])
    else (c, [])

/-- Embeds `ACPP_CharacterBase::TrySelectPawn`. -/
def TrySelectPawn (E : Engine) (W : World) (c : ACPP_CharacterBase) :
    Option (ACPP_CharacterBase × List Notify) :=
  let CharacterLocation := c.ActorLocation
  let CharacterForward := c.ActorForwardVector
  match selectLoop E W CharacterLocation CharacterForward {} c.DetectedPawns with
  | none => none
  | some sel => some (updateSelection W c sel)

/-- The result computed by `TrySelectPawn` before the stored selection is compared with it:
`ClosestPawn` when it passes `IsValidLowLevel`, no pawn otherwise. -/
def computedResult (W : World) (sel : Selection) : PawnPtr :=
  if W.IsValidLowLevel sel.ClosestPawn then sel.ClosestPawn else none

/-! ## Character: vocabulary of the selection properties -/

/-- Every non-null member of the list is a live `ACPP_CharacterBase`. -/
def allCharacters (W : World) (l : List PawnPtr) : Prop :=
  ∀ i, some i ∈ l → ∃ obj h, W.pawn i = some obj ∧ obj.asCharacterBase = some h

/-- The pointer is non-null and refers to a live character that is not dead (`Health > 0`). -/
def validAlive (W : World) : PawnPtr → Bool
  | none => false
  | some i =>
    match W.pawn i with
    | none => false
    | some obj =>
      match obj.asCharacterBase with
      | none => false
      | some h => decide (0 < h)

/-- Facing alignment of a pawn pointer (0 for a pointer that cannot be dereferenced). -/
def alignment (E : Engine) (W : World) (loc fwd : FVector) : PawnPtr → ℚ
  | none => 0
  | some i =>
    match W.pawn i with
    | none => 0
    | some obj => DotProductToPawn E loc fwd obj

/-- Distance of a pawn pointer (0 for a pointer that cannot be dereferenced). -/
def distance (E : Engine) (W : World) (loc : FVector) : PawnPtr → ℚ
  | none => 0
  | some i =>
    match W.pawn i with
    | none => 0
    | some obj => DistanceToPawn E loc obj

/-- An eligible candidate: valid, not dead and with facing alignment strictly positive. -/
def eligible (E : Engine) (W : World) (loc fwd : FVector) (p : PawnPtr) : Bool :=
  validAlive W p && decide (0 < alignment E W loc fwd p)

/-! ## The single pass of the specification -/

/-- The running best of the pass: the best candidate so far with its alignment and distance. -/
structure RunningBest where
  best : PawnPtr
  bestAlignment : ℚ
  bestDistance : ℚ
deriving DecidableEq

/-- Start of the pass: no best, the lowest possible alignment, the largest possible distance
(of a `float`). -/
def greedyStart : RunningBest :=
  { best := none, bestAlignment := -FLT_MAX, bestDistance := FLT_MAX }

/-- One candidate of the pass: an eligible candidate replaces the running best if and only if
its alignment is strictly greater than the best alignment and its distance strictly less than
the best distance. -/
def greedyStep (E : Engine) (W : World) (loc fwd : FVector) (b : RunningBest) (p : PawnPtr) :
    RunningBest :=
  if eligible E W loc fwd p = true ∧ alignment E W loc fwd p > b.bestAlignment
      ∧ distance E W loc p < b.bestDistance then
    { best := p, bestAlignment := alignment E W loc fwd p, bestDistance := distance E W loc p }
  else b

/-- The pass, left to right over the sensed set in iteration order. -/
def greedyPass (E : Engine) (W : World) (loc fwd : FVector) (l : List PawnPtr) : RunningBest :=
  l.foldl (greedyStep E W loc fwd) greedyStart

/-- The locals of `TrySelectPawn` that correspond to a running best. -/
def RunningBest.toSelection (b : RunningBest) : Selection :=
  { ClosestPawn := b.best, ClosestDistance := b.bestDistance, MaxDotProduct := b.bestAlignment }

/-- Invariant of the pass after the candidates `vis` have been visited: no visited eligible
candidate beats the running best on both alignment and distance, and the running best is either
the start value or a visited eligible candidate with its own alignment and distance. -/
def PassInv (E : Engine) (W : World) (loc fwd : FVector) (b : RunningBest)
    (vis : List PawnPtr) : Prop :=
  (∀ q ∈ vis, eligible E W loc fwd q = true →
      ¬ (alignment E W loc fwd q > b.bestAlignment ∧ distance E W loc q < b.bestDistance))
  ∧ (b = greedyStart
      ∨ (b.best ∈ vis ∧ eligible E W loc fwd b.best = true
          ∧ b.bestAlignment = alignment E W loc fwd b.best
          ∧ b.bestDistance = distance E W loc b.best
          ∧ distance E W loc b.best < FLT_MAX))

/-- A candidate the loop of `TrySelectPawn` can select: eligible and at a distance strictly
below `FLT_MAX`, the initial `ClosestDistance`. -/
def selectable (E : Engine) (W : World) (loc fwd : FVector) (p : PawnPtr) : Bool :=
  eligible E W loc fwd p && decide (distance E W loc p < FLT_MAX)

/-- Candidate `d` is a selectable member of `l` that is both strictly better aligned and
strictly nearer than every other selectable member of `l`. -/
def dominant (E : Engine) (W : World) (loc fwd : FVector) (l : List PawnPtr) (d : PawnPtr) :
    Prop :=
  d ∈ l ∧ selectable E W loc fwd d = true
  ∧ ∀ p ∈ l, selectable E W loc fwd p = true → p ≠ d →
      alignment E W loc fwd p < alignment E W loc fwd d
      ∧ distance E W loc d < distance E W loc p

/-! ## Character: perception -/

/-- The list with `P` put at position `slot` (at the end when `slot` is past it). -/
def insertSlot (P : PawnPtr) : Nat → List PawnPtr → List PawnPtr
  | 0, l => P :: l
  | _ + 1, [] => [P]
  | k + 1, x :: rest => x :: insertSlot P k rest

/-- Embeds `DetectedPawns.Add(P)` of the `TSet`: nothing changes when `P` is already a member;
otherwise `P` takes the free slot the container picks, at position `slot` of the iteration
order. The order of the other members is kept. -/
def TSetAdd (P : PawnPtr) (slot : Nat) (l : List PawnPtr) : List PawnPtr :=
  if P ∈ l then l else insertSlot P slot l

/-- Embeds `DetectedPawns.Remove(P)` of the `TSet`: the member equal to `P` is dropped, the
order of the others is kept. -/
def TSetRemove (P : PawnPtr) (l : List PawnPtr) : List PawnPtr :=
  l.filter (fun q => decide (q ≠ P))

/-- The test `!Pawn || !PawnSensing->CouldSeePawn(Pawn)` of `CheckForLostSight`. `none` is a
failure: `PawnSensing` is `nullptr`, or `CouldSeePawn` is handed a destroyed pawn. -/
def lostSight (W : World) (c : ACPP_CharacterBase) (Pawn : PawnPtr) : Option Bool :=
  match Pawn with
  | none => some true
  | some i =>
    match c.PawnSensing with
    | none => none
    | some sees =>
      match W.pawn i with
      | none => none
      | some _ => some (!sees i)

/-- The loop of `CheckForLostSight` over the members still to visit, with the current
`DetectedPawns` and `bWasAnyPawnRemoved`. -/
def lostSightLoop (logging : Bool) (W : World) (c : ACPP_CharacterBase) :
    List PawnPtr → List PawnPtr → Bool → Option (List PawnPtr × Bool)
  | [], DetectedPawns, bWasAnyPawnRemoved => some (DetectedPawns, bWasAnyPawnRemoved)
  | Pawn :: rest, DetectedPawns, bWasAnyPawnRemoved =>
    match lostSight W c Pawn with
    | none => none
    | some true =>
      match logName logging W Pawn with
      | none => none
      | some _ => lostSightLoop logging W c rest (TSetRemove Pawn DetectedPawns) true
    | some false => lostSightLoop logging W c rest DetectedPawns bWasAnyPawnRemoved

/-- Embeds `ACPP_CharacterBase::CheckForLostSight`. -/
def CheckForLostSight (logging : Bool) (E : Engine) (W : World) (c : ACPP_CharacterBase) :
    Option (ACPP_CharacterBase × List Notify) :=
  if IsDead c then some (c, [])
  else
    match lostSightLoop logging W c c.DetectedPawns c.DetectedPawns false with
    | none => none
    | some (DetectedPawns, bWasAnyPawnRemoved) =>
      let c₁ := { c with DetectedPawns := DetectedPawns }
      if bWasAnyPawnRemoved || c₁.DetectedPawns.isEmpty then
        match TrySelectPawn E W c₁ with
        | none => none
        | some r => some (r.1, r.2 ++ [Notify.OnDetectedPawnsChanged])
      else some (c₁, [])

/-- Embeds `ACPP_CharacterBase::OnSeePawn`; `slot` is the position the `TSet` gives a new
member. -/
def OnSeePawn (logging : Bool) (slot : Nat) (E : Engine) (W : World) (c : ACPP_CharacterBase)
    (DetectedPawn : PawnPtr) : Option (ACPP_CharacterBase × List Notify) :=
  match DetectedPawn with
  | none => some (c, [])
  | some _ =>
    let c₁ := { c with DetectedPawns := TSetAdd DetectedPawn slot c.DetectedPawns }
    match logName logging W DetectedPawn with
    | none => none
    | some _ =>
      match TrySelectPawn E W c₁ with
      | none => none
      | some r => some (r.1, r.2 ++ [Notify.OnDetectedPawnsChanged])

/-- A sensed pawn that `CheckForLostSight` keeps: non-null and still seen by the sensing
component. -/
def stillSeen (c : ACPP_CharacterBase) : PawnPtr → Bool
  | none => false
  | some i =>
    match c.PawnSensing with
    | none => false
    | some sees => sees i

/-- No dereference of `CheckForLostSight` can fail: every non-null member is a live object,
the sensing component exists if there is such a member, and, in a build with logging, no
member is null. -/
def sightCheckable (logging : Bool) (W : World) (c : ACPP_CharacterBase) : Prop :=
  (∀ i, some i ∈ c.DetectedPawns → (W.pawn i).isSome = true ∧ c.PawnSensing ≠ none)
  ∧ (logging = true → none ∉ c.DetectedPawns)

/-! ## Character: weapons -/

/-- Embeds `ACPP_CharacterBase::EquipSelectedWeapon`. `weaponLive` is `IsValidLowLevel` on the
equipped weapon and `SpawnActor` the engine's `SpawnActor<ACPP_Weapon>` for a weapon class (the
spawned actor, or `none` for `nullptr`). `none` is a failure: `Weapons[CurrentWeaponIndex]` with
the index outside `[0, Weapons.Num())`. -/
def EquipSelectedWeapon (weaponLive : Nat → Bool) (SpawnActor : Nat → Option Nat)
    (c : ACPP_CharacterBase) : Option ACPP_CharacterBase :=
  let c₁ : ACPP_CharacterBase :=
    match c.EquippedWeapon with
    | some w => if weaponLive w then { c with EquippedWeapon := none } else c
    | none => c
  if c₁.Weapons.length > 0 then
    if 0 ≤ c₁.CurrentWeaponIndex ∧ c₁.CurrentWeaponIndex < c₁.Weapons.length then
      match c₁.Weapons[c₁.CurrentWeaponIndex.toNat]? with
      | some (some cls) =>
        match SpawnActor cls with
        | some equippedWeapon => some { c₁ with EquippedWeapon := some equippedWeapon }
        | none => some c₁
      | some none => some c₁
      | none => none
    else none
  else some c₁

/-- Embeds `ACPP_CharacterBase::NextWeapon`. The index is a mathematical integer: from an index
in `[-1, Weapons.Num())` the `int` arithmetic of the source does not overflow. -/
def NextWeapon (weaponLive : Nat → Bool) (SpawnActor : Nat → Option Nat)
    (c : ACPP_CharacterBase) : Option ACPP_CharacterBase :=
  let c₁ := { c with CurrentWeaponIndex := c.CurrentWeaponIndex + 1 }
  let c₂ :=
    if c₁.CurrentWeaponIndex > (c₁.Weapons.length : Int) - 1 then
      { c₁ with CurrentWeaponIndex := 0 }
    else c₁
  EquipSelectedWeapon weaponLive SpawnActor c₂

/-- Embeds `ACPP_CharacterBase::PrevWeapon`. -/
def PrevWeapon (weaponLive : Nat → Bool) (SpawnActor : Nat → Option Nat)
    (c : ACPP_CharacterBase) : Option ACPP_CharacterBase :=
  let c₁ := { c with CurrentWeaponIndex := c.CurrentWeaponIndex - 1 }
  let c₂ :=
    if c₁.CurrentWeaponIndex < 0 then
      { c₁ with CurrentWeaponIndex := (c₁.Weapons.length : Int) - 1 }
    else c₁
  EquipSelectedWeapon weaponLive SpawnActor c₂

/-- A weapon-cycling call. -/
inductive WeaponCall where
  | Next
  | Prev
deriving DecidableEq

/-- A sequence of `NextWeapon` / `PrevWeapon` calls. -/
def runWeaponCalls (weaponLive : Nat → Bool) (SpawnActor : Nat → Option Nat) :
    ACPP_CharacterBase → List WeaponCall → Option ACPP_CharacterBase
  | c, [] => some c
  | c, WeaponCall.Next :: rest =>
    match NextWeapon weaponLive SpawnActor c with
    | none => none
    | some c' => runWeaponCalls weaponLive SpawnActor c' rest
  | c, WeaponCall.Prev :: rest =>
    match PrevWeapon weaponLive SpawnActor c with
    | none => none
    | some c' => runWeaponCalls weaponLive SpawnActor c' rest

/-! ## Player attack state -/

/-- Blueprint events fired by `UCPP_StateBase::OnEnter` and `UCPP_StateBase::OnExit`. -/
inductive StateEvent where
  | OnEnterEvent
  | OnExitEvent
deriving DecidableEq

/-- Data of `UCPP_PlayerAttackState`: its `AnimMontage`, and the number of entries of
`AnimInstance->OnMontageEnded` that bind this state's `OnMontageEnded` (`AddDynamic` appends
one entry, `RemoveDynamic` removes one if there is any). -/
structure UCPP_PlayerAttackState where
  AnimMontage : Option Nat := none
  MontageEndedBindings : Nat := 0
deriving DecidableEq

/-- Embeds `UCPP_PlayerAttackState::OnEnter`; `animMontageLenght` is the value returned by
`AnimInstance->Montage_Play(AnimMontage)` (`AnimInstance` is taken to be non-null, as `Init`
leaves it for a mesh with an animation instance). -/
def UCPP_PlayerAttackState.OnEnter (s : UCPP_PlayerAttackState) (animMontageLenght : ℚ) :
    UCPP_PlayerAttackState × List StateEvent :=
  let super : UCPP_PlayerAttackState × List StateEvent := (s, [StateEvent.OnEnterEvent])
  if animMontageLenght ≤ 0 then super
  else ({ super.1 with MontageEndedBindings := super.1.MontageEndedBindings + 1 }, super.2)

/-- Embeds `OnExit` of a `UCPP_PlayerAttackState`: the class does not override it, so this is
`UCPP_StateBase::OnExit`, which only fires `OnExitEvent`. -/
def UCPP_PlayerAttackState.OnExit (s : UCPP_PlayerAttackState) :
    UCPP_PlayerAttackState × List StateEvent :=
  (s, [StateEvent.OnExitEvent])

/-- Embeds `UCPP_PlayerAttackState::OnMontageEnded`. -/
def UCPP_PlayerAttackState.OnMontageEnded (s : UCPP_PlayerAttackState) (Montage : Option Nat) :
    UCPP_PlayerAttackState :=
  if Montage = s.AnimMontage then
    { s with MontageEndedBindings := s.MontageEndedBindings - 1 }
  else s

/-- A lifecycle call on the attack state: `OnEnter` with the length its `Montage_Play`
returns, or `OnExit`. -/
inductive AttackCall where
  | Enter (animMontageLenght : ℚ)
  | Exit
deriving DecidableEq

/-- A sequence of `OnEnter` / `OnExit` calls on the attack state. -/
def runAttackCalls : UCPP_PlayerAttackState → List AttackCall → UCPP_PlayerAttackState
  | s, [] => s
  | s, AttackCall.Enter len :: rest => runAttackCalls (s.OnEnter len).1 rest
  | s, AttackCall.Exit :: rest => runAttackCalls s.OnExit.1 rest

/-- The number of `OnEnter` calls of the sequence whose playback succeeded (length `> 0`). -/
def successfulEnters : List AttackCall → Nat
  | [] => 0
  | AttackCall.Enter len :: rest => (if len ≤ 0 then 0 else 1) + successfulEnters rest
  | AttackCall.Exit :: rest => successfulEnters rest

/-! ## Sample data for the concrete instances -/

/-- An engine instance: Euclidean `Size` and `GetSafeNormal` (exact on the vectors whose norm is
rational, through `Rat.sqrt`), and an `ApplyDamage` that broadcasts every non-zero damage
unchanged. -/
def sampleEngine : Engine where
  Size v := Rat.sqrt (v.X * v.X + v.Y * v.Y + v.Z * v.Z)
  GetSafeNormal v :=
    if Rat.sqrt (v.X * v.X + v.Y * v.Y + v.Z * v.Z) = 0 then {}
    else
      { X := v.X / Rat.sqrt (v.X * v.X + v.Y * v.Y + v.Z * v.Z),
        Y := v.Y / Rat.sqrt (v.X * v.X + v.Y * v.Y + v.Z * v.Z),
        Z := v.Z / Rat.sqrt (v.X * v.X + v.Y * v.Y + v.Z * v.Z) }
  ApplyDamage d := if d = 0 then none else some d

/-- A level with six pawns, all of them `ACPP_CharacterBase`, seen from a character at the
origin facing `+X`:
* 1 at `(5, 0, 0)`: in front, distance 5, alignment 1;
* 2 at `(1, 2, 2)`: in front, distance 3, alignment 1/3;
* 3 at `(-1, 0, 0)`: behind, distance 1;
* 4 at `(2, 0, 0)`: in front, dead (`Health = 0`);
* 5 at `(3, 4, 0)`: in front, distance 5, alignment 3/5;
* 6 at `(3, 0, 0)`: in front, distance 3, alignment 1.
Every other identity is a destroyed object. -/
def sampleWorld : World where
  pawn i :=
    if i = 1 then some { Location := { X := 5 }, asCharacterBase := some 100 }
    else if i = 2 then some { Location := { X := 1, Y := 2, Z := 2 }, asCharacterBase := some 100 }
    else if i = 3 then some { Location := { X := -1 }, asCharacterBase := some 100 }
    else if i = 4 then some { Location := { X := 2 }, asCharacterBase := some 0 }
    else if i = 5 then some { Location := { X := 3, Y := 4 }, asCharacterBase := some 100 }
    else if i = 6 then some { Location := { X := 3 }, asCharacterBase := some 100 }
    else none

/-- A character at the origin facing `+X` that senses the pawns `l`, with nothing selected. -/
def observer (l : List PawnPtr) : ACPP_CharacterBase :=
  { DetectedPawns := l }

/-- A character with `Health = 100` and `MaxHealth = 100` (the defaults of the class). -/
def freshCharacter : ACPP_CharacterBase := {}

/-- A living character at the origin facing `+X` that senses the pawns `l`, has `sel`
selected, and whose sensing component still sees exactly the pawns satisfying `sees`. -/
def watcher (sees : Nat → Bool) (l : List PawnPtr) (sel : PawnPtr) : ACPP_CharacterBase :=
  { DetectedPawns := l, SelectedPawn := sel, PawnSensing := some sees }

/-- The sample level with one more pawn, 7 at `(4, 0, 0)`: a live `APawn` of a class other than
`ACPP_CharacterBase`. -/
def levelWithPlainPawn : World where
  pawn i :=
    if i = 7 then some { Location := { X := 4 }, asCharacterBase := none }
    else sampleWorld.pawn i

/-- The sample level with one more pawn, 8 at `(FLT_MAX, 0, 0)`: a living character straight
ahead of the origin, at distance `FLT_MAX`. -/
def levelWithFarPawn : World where
  pawn i :=
    if i = 8 then some { Location := { X := FLT_MAX }, asCharacterBase := some 100 }
    else sampleWorld.pawn i

/-! ## Theorems: state machine -/

theorem SetState_same (live : Nat → Bool) (m : UCPP_StateMachineBase) :
    SetState live m m.CurrentState = (m, []) := by
  simp [SetState]

theorem SetState_CurrentState (live : Nat → Bool) (m : UCPP_StateMachineBase) (S : StatePtr) :
    (SetState live m S).1.CurrentState = S := by
  unfold SetState
  split
  · assumption
  · rfl

theorem bracketed_append (a : Option Nat) (t₁ t₂ : List SMCall) :
    bracketed a (t₁ ++ t₂) = (bracketed a t₁).bind (fun a' => bracketed a' t₂) := by
  induction t₁ generalizing a with
  | nil => simp [bracketed]
  | cons e t ih =>
    cases e with
    | OnExit s c =>
      by_cases h : a = some s
      · simp [bracketed, h, ih]
      · simp [bracketed, h]
    | OnStateChangedEvent c => simp [bracketed, ih]
    | OnEnter s c =>
      by_cases h : a = none
      · simp [bracketed, h, ih]
      · simp [bracketed, h]

theorem SetState_bracketed (live : Nat → Bool) (m : UCPP_StateMachineBase) (S : StatePtr)
    (hm : ∀ s, m.CurrentState = some s → live s = true) (hS : ∀ s, S = some s → live s = true) :
    bracketed m.CurrentState (SetState live m S).2 = some S := by
  unfold SetState
  split
  · next h => simp [bracketed, h]
  · cases hc : m.CurrentState with
    | none =>
      cases S with
      | none => simp [exitCurrent, enterCurrent, bracketed, hc]
      | some t => simp [exitCurrent, enterCurrent, bracketed, hc, hS t rfl]
    | some s =>
      cases S with
      | none => simp [exitCurrent, enterCurrent, bracketed, hc, hm s hc]
      | some t => simp [exitCurrent, enterCurrent, bracketed, hc, hm s hc, hS t rfl]

theorem runSetState_bracketed (live : Nat → Bool) (calls : List StatePtr) :
    ∀ m : UCPP_StateMachineBase, (∀ s, m.CurrentState = some s → live s = true) →
      (∀ s, some s ∈ calls → live s = true) →
      bracketed m.CurrentState (runSetState live m calls).2
        = some (runSetState live m calls).1.CurrentState := by
  induction calls with
  | nil => intro m _ _; simp [runSetState, bracketed]
  | cons S rest ih =>
    intro m hm hcalls
    have hS : ∀ s, S = some s → live s = true := fun s hs => hcalls s (by simp [hs])
    have h1 := SetState_bracketed live m S hm hS
    have hcur := SetState_CurrentState live m S
    have h2 := ih (SetState live m S).1 (by rw [hcur]; exact hS)
      (fun s hs => hcalls s (List.mem_cons_of_mem _ hs))
    simp only [runSetState, bracketed_append, h1, Option.some_bind]
    rw [hcur] at h2
    exact h2

theorem bracketed_active_exit (S : Nat) (mid : List SMCall) :
    ∀ (T : Nat) (c : StatePtr) (post : List SMCall) (b : Option Nat),
      bracketed (some S) (mid ++ SMCall.OnEnter T c :: post) = some b →
      ∃ c', SMCall.OnExit S c' ∈ mid := by
  induction mid with
  | nil => intro T c post b h; simp [bracketed] at h
  | cons e t ih =>
    intro T c post b h
    cases e with
    | OnExit s c₀ =>
      by_cases hs : s = S
      · exact ⟨c₀, by simp [hs]⟩
      · have : ¬ (some S = some s) := fun h' => hs (Option.some.inj h').symm
        simp [bracketed, this] at h
    | OnStateChangedEvent c₀ =>
      simp only [List.cons_append, bracketed] at h
      obtain ⟨c', hc'⟩ := ih T c post b h
      exact ⟨c', List.mem_cons_of_mem _ hc'⟩
    | OnEnter s c₀ => simp [bracketed] at h

theorem bracketed_enter_exit (a b : Option Nat) (pre mid post : List SMCall) (S T : Nat)
    (c₁ c₂ : StatePtr)
    (h : bracketed a (pre ++ SMCall.OnEnter S c₁ :: (mid ++ SMCall.OnEnter T c₂ :: post)) = some b) :
    ∃ c', SMCall.OnExit S c' ∈ mid := by
  rw [bracketed_append] at h
  cases hp : bracketed a pre with
  | none => simp [hp] at h
  | some a₁ =>
    simp only [hp, Option.some_bind] at h
    by_cases ha : a₁ = none
    · simp only [bracketed, ha, if_true] at h
      exact bracketed_active_exit S mid T c₂ post b h
    · simp [bracketed, ha] at h

/-- C1: `SetState(S)` with `S` already current (also `nullptr` when there is no current state)
leaves the machine unchanged and calls no hook; hence a second `SetState(S)` right after a
first one calls nothing, whatever the first one did, and when `S` is a valid state other than
the current one, `S.OnEnter` is called exactly once over the two calls. -/
theorem SetState_redundant_noop (live : Nat → Bool) (m : UCPP_StateMachineBase) :
    SetState live m m.CurrentState = (m, [])
    ∧ (∀ S : StatePtr,
        SetState live (SetState live m S).1 S = ((SetState live m S).1, []))
    ∧ (∀ s : Nat, live s = true → m.CurrentState ≠ some s →
        ((SetState live m (some s)).2
          ++ (SetState live (SetState live m (some s)).1 (some s)).2).count
            (SMCall.OnEnter s (some s)) = 1) := by
  refine ⟨SetState_same live m, ?_, ?_⟩
  · intro S
    have h := SetState_same live (SetState live m S).1
    rw [SetState_CurrentState] at h
    exact h
  · intro s hs hne
    have h := SetState_same live (SetState live m (some s)).1
    rw [SetState_CurrentState] at h
    rw [h]
    cases hc : m.CurrentState with
    | none => simp [SetState, hc, exitCurrent, enterCurrent, hs]
    | some t =>
      have hts : t ≠ s := fun h' => hne (by rw [hc, h'])
      by_cases ht : live t = true
      · simp [SetState, hc, exitCurrent, enterCurrent, hs, ht, hts]
      · simp [SetState, hc, exitCurrent, enterCurrent, hs, ht, hts]

/-- Instance of C1: `SetState(7)` on a machine whose current state is 7, and twice in a row on a
machine without a current state. -/
theorem SetState_redundant_noop_witness :
    SetState (fun _ => true) { CurrentState := some 7 } (some 7)
        = ({ CurrentState := some 7 }, [])
    ∧ ((SetState (fun _ => true) { CurrentState := none } (some 7)).2
          ++ (SetState (fun _ => true)
                (SetState (fun _ => true) { CurrentState := none } (some 7)).1 (some 7)).2).count
            (SMCall.OnEnter 7 (some 7)) = 1 :=
  ⟨(SetState_redundant_noop (fun _ => true) { CurrentState := some 7 }).1,
   (SetState_redundant_noop (fun _ => true) { CurrentState := none }).2.2 7 rfl (by decide)⟩

/-- C2: with valid states, a `SetState` call whose argument differs from the current state
calls exactly `OnExit` of the old state (if there is one), `OnStateChangedEvent`, `OnEnter` of
the new state (if non-null), in this order, the last two observing `CurrentState` equal to the
new state; over a whole sequence of calls the hook trace is bracketed (an `OnEnter` only when no
state is entered, an `OnExit` only of the entered state), so between the `OnEnter` of a state
and the next `OnEnter` there is the `OnExit` of that state. -/
theorem SetState_exit_notify_enter (live : Nat → Bool) :
    (∀ (m : UCPP_StateMachineBase) (NewState : StatePtr),
        m.CurrentState ≠ NewState →
        (∀ s, m.CurrentState = some s → live s = true) →
        (∀ s, NewState = some s → live s = true) →
        SetState live m NewState =
          ({ m with CurrentState := NewState },
            (match m.CurrentState with
              | some s => [SMCall.OnExit s (some s)]
              | none => [])
            ++ [SMCall.OnStateChangedEvent NewState]
            ++ (match NewState with
              | some s => [SMCall.OnEnter s NewState]
              | none => [])))
    ∧ (∀ (m : UCPP_StateMachineBase) (calls : List StatePtr),
        (∀ s, m.CurrentState = some s → live s = true) →
        (∀ s, some s ∈ calls → live s = true) →
        bracketed m.CurrentState (runSetState live m calls).2
            = some (runSetState live m calls).1.CurrentState
        ∧ ∀ (pre mid post : List SMCall) (S T : Nat) (c₁ c₂ : StatePtr),
            (runSetState live m calls).2
                = pre ++ SMCall.OnEnter S c₁ :: (mid ++ SMCall.OnEnter T c₂ :: post) →
            ∃ c', SMCall.OnExit S c' ∈ mid) := by
  refine ⟨?_, ?_⟩
  · intro m NewState hne hm hN
    cases hc : m.CurrentState with
    | none =>
      cases NewState with
      | none => exact absurd hc hne
      | some t => simp [SetState, hc, exitCurrent, enterCurrent, hN t rfl]
    | some s =>
      cases NewState with
      | none => simp [SetState, hc, exitCurrent, enterCurrent, hm s hc]
      | some t =>
        have hst : s ≠ t := fun h' => hne (by rw [hc, h'])
        simp [SetState, hc, exitCurrent, enterCurrent, hm s hc, hN t rfl, hst]
  · intro m calls hm hcalls
    have hb := runSetState_bracketed live calls m hm hcalls
    refine ⟨hb, ?_⟩
    intro pre mid post S T c₁ c₂ htr
    rw [htr] at hb
    exact bracketed_enter_exit _ _ pre mid post S T c₁ c₂ hb

/-- Instance of C2: the switch from state 1 to state 2, and a sequence of five calls from the
initial machine. -/
theorem SetState_exit_notify_enter_witness :
    SetState (fun _ => true) { CurrentState := some 1 } (some 2)
        = ({ CurrentState := some 2 },
            [SMCall.OnExit 1 (some 1), SMCall.OnStateChangedEvent (some 2),
             SMCall.OnEnter 2 (some 2)])
    ∧ bracketed none (runSetState (fun _ => true) {} [some 1, some 1, some 2, none, some 1]).2
        = some (some 1) :=
  ⟨(SetState_exit_notify_enter (fun _ => true)).1 { CurrentState := some 1 } (some 2)
      (by decide) (fun _ _ => rfl) (fun _ _ => rfl),
   ((SetState_exit_notify_enter (fun _ => true)).2 {} [some 1, some 1, some 2, none, some 1]
      (fun _ _ => rfl) (fun _ _ => rfl)).1⟩

/-! ## Theorems: vitality -/

theorem Clamp_eq_max_min (X Max : ℚ) (hmax : 0 ≤ Max) :
    FMath.Clamp X 0 Max = max 0 (min X Max) := by
  unfold FMath.Clamp
  by_cases h0 : X < 0
  · have h1 : min X Max < 0 := lt_of_le_of_lt (min_le_left _ _) h0
    rw [if_pos h0, max_eq_left h1.le]
  · have h0' : 0 ≤ X := not_lt.mp h0
    by_cases h1 : X < Max
    · rw [if_neg h0, if_pos h1, min_eq_left h1.le, max_eq_right h0']
    · rw [if_neg h0, if_neg h1, min_eq_right (not_lt.mp h1), max_eq_right hmax]

theorem AddHealth_MaxHealth (c : ACPP_CharacterBase) (add : ℚ) :
    (AddHealth c add).1.MaxHealth = c.MaxHealth := rfl

theorem AddHealth_Health (c : ACPP_CharacterBase) (add : ℚ) :
    (AddHealth c add).1.Health = FMath.Clamp (c.Health + add) 0 c.MaxHealth := rfl

theorem logName_eq_some (logging : Bool) (W : World) (P : PawnPtr) :
    logName logging W P = some () ↔ (logging = true → W.IsValidLowLevel P = true) := by
  cases logging with
  | false => simp [logName]
  | true =>
    cases P with
    | none => simp [logName, World.IsValidLowLevel]
    | some i =>
      cases h : W.pawn i <;> simp [logName, World.IsValidLowLevel, h]

theorem HandleAnyDamage_val_fst (logging : Bool) (W : World) (c : ACPP_CharacterBase)
    (DamagedActor : PawnPtr) (Damage : ℚ) (DamageCauser : PawnPtr) :
    (HandleAnyDamage logging W c DamagedActor Damage DamageCauser).val.1
      = (AddHealth c (-Damage)).1 := by
  unfold HandleAnyDamage
  simp only [Die]
  split
  · split <;> rfl
  · rfl

theorem HandleAnyDamage_returned (logging : Bool) (W : World) (c : ACPP_CharacterBase)
    (DamagedActor : PawnPtr) (Damage : ℚ) (DamageCauser : PawnPtr) :
    (HandleAnyDamage logging W c DamagedActor Damage DamageCauser).returned = true
      ↔ logName logging W DamagedActor = some () ∧ logName logging W DamageCauser = some () := by
  unfold HandleAnyDamage
  cases h1 : logName logging W DamagedActor <;> cases h2 : logName logging W DamageCauser
    <;> simp only [Die] <;> (try split) <;> simp

theorem HandleAnyDamage_val_snd (logging : Bool) (W : World) (c : ACPP_CharacterBase)
    (DamagedActor : PawnPtr) (Damage : ℚ) (DamageCauser : PawnPtr) :
    (HandleAnyDamage logging W c DamagedActor Damage DamageCauser).val.2 =
      Notify.OnHealthChanged
          (HandleAnyDamage logging W c DamagedActor Damage DamageCauser).val.1.Health ::
        (if (HandleAnyDamage logging W c DamagedActor Damage DamageCauser).returned = true
            ∧ (HandleAnyDamage logging W c DamagedActor Damage DamageCauser).val.1.Health ≤ 0
          then [Notify.OnDie, Notify.OnDieDispatcher] else []) := by
  rw [HandleAnyDamage_val_fst]
  unfold HandleAnyDamage
  cases h1 : logName logging W DamagedActor <;> cases h2 : logName logging W DamageCauser
    <;> simp only [Die]
  · simp [AddHealth]
  · simp [AddHealth]
  · simp [AddHealth]
  · split
    · next h =>
      simp only [AddHealth] at h ⊢
      simp [h]
    · next h =>
      simp only [AddHealth] at h ⊢
      simp [h]

theorem Health_in_range (c : ACPP_CharacterBase) (add : ℚ) (hmax : 0 ≤ c.MaxHealth) :
    0 ≤ (AddHealth c add).1.Health ∧ (AddHealth c add).1.Health ≤ c.MaxHealth := by
  rw [AddHealth_Health, Clamp_eq_max_min _ _ hmax]
  exact ⟨le_max_left _ _, max_le hmax (min_le_right _ _)⟩

theorem runHandleAnyDamage_range (logging : Bool) (W : World) (evs : List DamageEvent) :
    ∀ c : ACPP_CharacterBase, 0 ≤ c.MaxHealth → evs ≠ [] →
      (runHandleAnyDamage logging W c evs).val.1.MaxHealth = c.MaxHealth
      ∧ 0 ≤ (runHandleAnyDamage logging W c evs).val.1.Health
      ∧ (runHandleAnyDamage logging W c evs).val.1.Health ≤ c.MaxHealth := by
  induction evs with
  | nil => intro c _ h; exact absurd rfl h
  | cons e rest ih =>
    intro c hmax _
    have hfst := HandleAnyDamage_val_fst logging W c e.DamagedActor e.Damage e.DamageCauser
    have hM : (HandleAnyDamage logging W c e.DamagedActor e.Damage e.DamageCauser).val.1.MaxHealth
        = c.MaxHealth := by rw [hfst]; rfl
    have hR := Health_in_range c (-e.Damage) hmax
    rw [← hfst] at hR
    by_cases hret :
        (HandleAnyDamage logging W c e.DamagedActor e.Damage e.DamageCauser).returned = true
    · cases rest with
      | nil =>
        simp only [runHandleAnyDamage, hret, if_true]
        exact ⟨hM, hR⟩
      | cons e' rest' =>
        have := ih (HandleAnyDamage logging W c e.DamagedActor e.Damage e.DamageCauser).val.1
          (by rw [hM]; exact hmax) (by simp)
        rw [hM] at this
        simp only [runHandleAnyDamage, hret, if_true] at this ⊢
        exact this
    · simp only [runHandleAnyDamage, hret]
      exact ⟨hM, hR⟩

/-- C3: with `MaxHealth ≥ 0`, `AddHealth(delta)` leaves `Health = clamp(Health + delta, 0,
MaxHealth)`, hence `0 ≤ Health ≤ MaxHealth`, and fires `OnHealthChanged` with exactly that
value; `HandleAnyDamage(Damage)` does the same with `delta = -Damage` (its first event is that
`OnHealthChanged`, whether or not the call then returns), and the bounds hold after every
non-empty sequence of damage events. -/
theorem AddHealth_clamps (c : ACPP_CharacterBase) (hmax : 0 ≤ c.MaxHealth) :
    (∀ delta : ℚ,
        (AddHealth c delta).1.Health = max 0 (min (c.Health + delta) c.MaxHealth)
        ∧ 0 ≤ (AddHealth c delta).1.Health
        ∧ (AddHealth c delta).1.Health ≤ c.MaxHealth
        ∧ (AddHealth c delta).1.MaxHealth = c.MaxHealth
        ∧ (AddHealth c delta).2 = [Notify.OnHealthChanged (AddHealth c delta).1.Health])
    ∧ (∀ (logging : Bool) (W : World) (DamagedActor : PawnPtr) (Damage : ℚ)
        (DamageCauser : PawnPtr),
        (HandleAnyDamage logging W c DamagedActor Damage DamageCauser).val.1.Health
            = max 0 (min (c.Health + -Damage) c.MaxHealth)
        ∧ 0 ≤ (HandleAnyDamage logging W c DamagedActor Damage DamageCauser).val.1.Health
        ∧ (HandleAnyDamage logging W c DamagedActor Damage DamageCauser).val.1.Health
            ≤ c.MaxHealth
        ∧ (HandleAnyDamage logging W c DamagedActor Damage DamageCauser).val.1.MaxHealth
            = c.MaxHealth
        ∧ (HandleAnyDamage logging W c DamagedActor Damage DamageCauser).val.2 =
            Notify.OnHealthChanged
                (HandleAnyDamage logging W c DamagedActor Damage DamageCauser).val.1.Health ::
              (if (HandleAnyDamage logging W c DamagedActor Damage DamageCauser).returned = true
                  ∧ (HandleAnyDamage logging W c DamagedActor Damage DamageCauser).val.1.Health
                      ≤ 0
                then [Notify.OnDie, Notify.OnDieDispatcher] else []))
    ∧ (∀ (logging : Bool) (W : World) (evs : List DamageEvent), evs ≠ [] →
        0 ≤ (runHandleAnyDamage logging W c evs).val.1.Health
        ∧ (runHandleAnyDamage logging W c evs).val.1.Health ≤ c.MaxHealth) := by
  refine ⟨?_, ?_, ?_⟩
  · intro delta
    refine ⟨?_, (Health_in_range c delta hmax).1, (Health_in_range c delta hmax).2, rfl, rfl⟩
    rw [AddHealth_Health, Clamp_eq_max_min _ _ hmax]
  · intro logging W DamagedActor Damage DamageCauser
    have hfst := HandleAnyDamage_val_fst logging W c DamagedActor Damage DamageCauser
    refine ⟨?_, ?_, ?_, ?_,
      HandleAnyDamage_val_snd logging W c DamagedActor Damage DamageCauser⟩
    · rw [hfst, AddHealth_Health, Clamp_eq_max_min _ _ hmax]
    · rw [hfst]; exact (Health_in_range c (-Damage) hmax).1
    · rw [hfst]; exact (Health_in_range c (-Damage) hmax).2
    · rw [hfst]; rfl
  · intro logging W evs hevs
    exact (runHandleAnyDamage_range logging W evs c hmax hevs).2

/-- Instance of C3: `AddHealth(-150)` and `AddHealth(30)` at `Health = MaxHealth = 100`. -/
theorem AddHealth_clamps_witness :
    (0 : ℚ) ≤ freshCharacter.MaxHealth
    ∧ (AddHealth freshCharacter (-150)).1.Health
        = max 0 (min (freshCharacter.Health + -150) freshCharacter.MaxHealth)
    ∧ (AddHealth freshCharacter 30).1.Health ≤ freshCharacter.MaxHealth :=
  ⟨by norm_num [freshCharacter],
   ((AddHealth_clamps freshCharacter (by norm_num [freshCharacter])).1 (-150)).1,
   ((AddHealth_clamps freshCharacter (by norm_num [freshCharacter])).1 30).2.2.1⟩

theorem IsDead_iff (c : ACPP_CharacterBase) : IsDead c = true ↔ c.Health ≤ 0 := by
  unfold IsDead
  split <;> simp [*]

theorem TakeAttack_dead (E : Engine) (logging : Bool) (W : World) (self : Nat)
    (c : ACPP_CharacterBase) (hd : IsDead c = true) (attacker : PawnPtr) (d : ℚ) :
    TakeAttack E logging W self c attacker d = { val := (c, []), returned := true } := by
  simp [TakeAttack, hd]

theorem runTakeAttack_dead (E : Engine) (logging : Bool) (W : World) (self : Nat)
    (attacks : List (PawnPtr × ℚ)) :
    ∀ c : ACPP_CharacterBase, IsDead c = true →
      runTakeAttack E logging W self c attacks = { val := (c, []), returned := true } := by
  induction attacks with
  | nil => intro c _; rfl
  | cons a rest ih =>
    intro c hd
    simp only [runTakeAttack, TakeAttack_dead E logging W self c hd, ih c hd, if_true,
      List.append_nil]

theorem HandleAnyDamage_count_OnDie (logging : Bool) (W : World) (c : ACPP_CharacterBase)
    (DamagedActor : PawnPtr) (Damage : ℚ) (DamageCauser : PawnPtr) :
    (HandleAnyDamage logging W c DamagedActor Damage DamageCauser).val.2.count Notify.OnDie
        = (if (HandleAnyDamage logging W c DamagedActor Damage DamageCauser).returned = true
              ∧ IsDead (HandleAnyDamage logging W c DamagedActor Damage DamageCauser).val.1
                  = true
            then 1 else 0)
    ∧ (HandleAnyDamage logging W c DamagedActor Damage DamageCauser).val.2.count
          Notify.OnDieDispatcher
        = (if (HandleAnyDamage logging W c DamagedActor Damage DamageCauser).returned = true
              ∧ IsDead (HandleAnyDamage logging W c DamagedActor Damage DamageCauser).val.1
                  = true
            then 1 else 0) := by
  rw [HandleAnyDamage_val_snd]
  simp only [IsDead_iff]
  by_cases h : (HandleAnyDamage logging W c DamagedActor Damage DamageCauser).returned = true
      ∧ (HandleAnyDamage logging W c DamagedActor Damage DamageCauser).val.1.Health ≤ 0
  · simp [h]
  · simp [h]

theorem TakeAttack_count_OnDie (E : Engine) (logging : Bool) (W : World) (self : Nat)
    (c : ACPP_CharacterBase) (ha : IsDead c = false) (attacker : PawnPtr) (d : ℚ) :
    (TakeAttack E logging W self c attacker d).val.2.count Notify.OnDie
        = (if (TakeAttack E logging W self c attacker d).returned = true
              ∧ IsDead (TakeAttack E logging W self c attacker d).val.1 = true
            then 1 else 0)
    ∧ (TakeAttack E logging W self c attacker d).val.2.count Notify.OnDieDispatcher
        = (if (TakeAttack E logging W self c attacker d).returned = true
              ∧ IsDead (TakeAttack E logging W self c attacker d).val.1 = true
            then 1 else 0) := by
  unfold TakeAttack
  cases hE : E.ApplyDamage d with
  | none => simp [ha]
  | some Damage =>
    simp only [ha, Bool.not_false, if_true]
    exact HandleAnyDamage_count_OnDie logging W c (some self) Damage attacker

theorem runTakeAttack_count_OnDie (E : Engine) (logging : Bool) (W : World) (self : Nat)
    (attacks : List (PawnPtr × ℚ)) :
    ∀ c : ACPP_CharacterBase, IsDead c = false →
      (runTakeAttack E logging W self c attacks).val.2.count Notify.OnDie
          = (if (runTakeAttack E logging W self c attacks).returned = true
                ∧ IsDead (runTakeAttack E logging W self c attacks).val.1 = true
              then 1 else 0)
      ∧ (runTakeAttack E logging W self c attacks).val.2.count Notify.OnDieDispatcher
          = (if (runTakeAttack E logging W self c attacks).returned = true
                ∧ IsDead (runTakeAttack E logging W self c attacks).val.1 = true
              then 1 else 0) := by
  induction attacks with
  | nil => intro c ha; simp [runTakeAttack, ha]
  | cons a rest ih =>
    intro c ha
    have h1 := TakeAttack_count_OnDie E logging W self c ha a.1 a.2
    by_cases hret : (TakeAttack E logging W self c a.1 a.2).returned = true
    · cases hd : IsDead (TakeAttack E logging W self c a.1 a.2).val.1 with
      | true =>
        have hrest := runTakeAttack_dead E logging W self rest _ hd
        simp only [hret, hd, and_self, if_true] at h1
        simp only [runTakeAttack, hret, if_true, hrest, List.append_nil, hd, and_self]
        exact h1
      | false =>
        have h2 := ih _ hd
        simp only [hret, hd, Bool.false_eq_true, and_false, if_false] at h1
        simp only [runTakeAttack, hret, if_true, List.count_append, h1.1, h1.2, zero_add]
        exact h2
    · have hrun : runTakeAttack E logging W self c (a :: rest)
          = TakeAttack E logging W self c a.1 a.2 := by
        simp only [runTakeAttack]
        rw [if_neg hret]
      rw [hrun]
      exact h1

theorem TakeAttack_returns (E : Engine) (logging : Bool) (W : World) (self : Nat)
    (c : ACPP_CharacterBase) (attacker : PawnPtr) (d : ℚ)
    (hv : logging = true →
      W.IsValidLowLevel (some self) = true ∧ W.IsValidLowLevel attacker = true) :
    (TakeAttack E logging W self c attacker d).returned = true := by
  unfold TakeAttack
  cases hd : IsDead c with
  | true => simp
  | false =>
    cases hE : E.ApplyDamage d with
    | none => simp
    | some Damage =>
      simp only [Bool.not_false, if_true]
      rw [HandleAnyDamage_returned, logName_eq_some, logName_eq_some]
      exact ⟨fun h => (hv h).1, fun h => (hv h).2⟩

theorem runTakeAttack_returns (E : Engine) (logging : Bool) (W : World) (self : Nat)
    (attacks : List (PawnPtr × ℚ))
    (hv : logging = true →
      W.IsValidLowLevel (some self) = true
      ∧ ∀ a ∈ attacks, W.IsValidLowLevel a.1 = true) :
    ∀ c : ACPP_CharacterBase, (runTakeAttack E logging W self c attacks).returned = true := by
  induction attacks with
  | nil => intro c; rfl
  | cons a rest ih =>
    intro c
    have h1 := TakeAttack_returns E logging W self c a.1 a.2
      (fun h => ⟨(hv h).1, (hv h).2 a (by simp)⟩)
    simp only [runTakeAttack, h1, if_true]
    exact ih (fun h => ⟨(hv h).1, fun b hb => (hv h).2 b (List.mem_cons_of_mem _ hb)⟩) _

/-- C4, the claim as stated fails: delivered directly to `HandleAnyDamage` (by valid actors),
damage 150 and then damage 10 on a character with `Health = MaxHealth = 100` fire `OnDie` and
`OnDieDispatcher` twice, the second time while `Health` stays at 0. -/
theorem HandleAnyDamage_dies_again :
    runHandleAnyDamage true sampleWorld freshCharacter
        [{ DamagedActor := some 1, Damage := 150, DamageCauser := some 2 },
         { DamagedActor := some 1, Damage := 10, DamageCauser := some 2 }]
      = { val := ({ freshCharacter with Health := 0 },
            [Notify.OnHealthChanged 0, Notify.OnDie, Notify.OnDieDispatcher,
             Notify.OnHealthChanged 0, Notify.OnDie, Notify.OnDieDispatcher]),
          returned := true }
    ∧ (runHandleAnyDamage true sampleWorld freshCharacter
        [{ DamagedActor := some 1, Damage := 150, DamageCauser := some 2 },
         { DamagedActor := some 1, Damage := 10, DamageCauser := some 2 }]).val.2.count
          Notify.OnDie = 2
    ∧ ¬ (runHandleAnyDamage true sampleWorld freshCharacter
        [{ DamagedActor := some 1, Damage := 150, DamageCauser := some 2 },
         { DamagedActor := some 1, Damage := 10, DamageCauser := some 2 }]).val.2.count
          Notify.OnDie = 1 := by
  have h : runHandleAnyDamage true sampleWorld freshCharacter
      [{ DamagedActor := some 1, Damage := 150, DamageCauser := some 2 },
       { DamagedActor := some 1, Damage := 10, DamageCauser := some 2 }]
      = { val := ({ freshCharacter with Health := 0 },
            [Notify.OnHealthChanged 0, Notify.OnDie, Notify.OnDieDispatcher,
             Notify.OnHealthChanged 0, Notify.OnDie, Notify.OnDieDispatcher]),
          returned := true } := by
    norm_num [runHandleAnyDamage, HandleAnyDamage, logName, sampleWorld, AddHealth, Die,
      FMath.Clamp, freshCharacter]
  rw [h]
  refine ⟨rfl, ?_, ?_⟩ <;> decide

/-- C4, amended: for every sequence of attacks delivered through `TakeAttack` to a character
that starts alive and in which every call returns, `OnDie` and `OnDieDispatcher` fire once in
total if the character ends dead and not at all otherwise; they fire in the very attack that
leaves `Health ≤ 0`, and every attack on a dead character is dropped (no change, no event).
Every call returns in a build without logging, and in a build with logging when the character
and every attacker are valid actors. (In a sequence that stops at an invalid dereference
neither event has fired.) -/
theorem TakeAttack_dies_once (E : Engine) (logging : Bool) (W : World) (self : Nat)
    (c : ACPP_CharacterBase) (ha : IsDead c = false) :
    (∀ attacks : List (PawnPtr × ℚ),
        (runTakeAttack E logging W self c attacks).val.2.count Notify.OnDie
            = (if (runTakeAttack E logging W self c attacks).returned = true
                  ∧ IsDead (runTakeAttack E logging W self c attacks).val.1 = true
                then 1 else 0)
        ∧ (runTakeAttack E logging W self c attacks).val.2.count Notify.OnDieDispatcher
            = (if (runTakeAttack E logging W self c attacks).returned = true
                  ∧ IsDead (runTakeAttack E logging W self c attacks).val.1 = true
                then 1 else 0)
        ∧ ((logging = true →
              W.IsValidLowLevel (some self) = true
              ∧ ∀ a ∈ attacks, W.IsValidLowLevel a.1 = true) →
            (runTakeAttack E logging W self c attacks).returned = true))
    ∧ (∀ (attacker : PawnPtr) (d : ℚ),
        (TakeAttack E logging W self c attacker d).val.2.count Notify.OnDie
            = (if (TakeAttack E logging W self c attacker d).returned = true
                  ∧ IsDead (TakeAttack E logging W self c attacker d).val.1 = true
                then 1 else 0))
    ∧ (∀ (c' : ACPP_CharacterBase) (attacks : List (PawnPtr × ℚ)), IsDead c' = true →
        runTakeAttack E logging W self c' attacks = { val := (c', []), returned := true }) :=
  ⟨fun attacks =>
      ⟨(runTakeAttack_count_OnDie E logging W self attacks c ha).1,
       (runTakeAttack_count_OnDie E logging W self attacks c ha).2,
       fun hv => runTakeAttack_returns E logging W self attacks hv c⟩,
   fun attacker d => (TakeAttack_count_OnDie E logging W self c ha attacker d).1,
   fun c' attacks hd => runTakeAttack_dead E logging W self attacks c' hd⟩

/-- Instance of amended C4: in a build with logging, attacks of 150 and then 10 by the live
pawn 2 on the character 1 with `Health = MaxHealth = 100` leave `Health = 0`, the character
dead, and `OnDie` fired once. -/
theorem TakeAttack_dies_once_witness :
    IsDead freshCharacter = false
    ∧ (runTakeAttack sampleEngine true sampleWorld 1 freshCharacter
          [(some 2, 150), (some 2, 10)]).val.2.count Notify.OnDie
        = (if (runTakeAttack sampleEngine true sampleWorld 1 freshCharacter
                [(some 2, 150), (some 2, 10)]).returned = true
              ∧ IsDead (runTakeAttack sampleEngine true sampleWorld 1 freshCharacter
                [(some 2, 150), (some 2, 10)]).val.1 = true
            then 1 else 0)
    ∧ runTakeAttack sampleEngine true sampleWorld 1 freshCharacter
          [(some 2, 150), (some 2, 10)]
        = { val := ({ freshCharacter with Health := 0 },
              [Notify.OnHealthChanged 0, Notify.OnDie, Notify.OnDieDispatcher]),
            returned := true }
    ∧ sampleWorld.IsValidLowLevel (some 1) = true
    ∧ (∀ a ∈ [((some 2 : PawnPtr), (150 : ℚ)), (some 2, 10)],
        sampleWorld.IsValidLowLevel a.1 = true)
    ∧ (runTakeAttack sampleEngine true sampleWorld 1 freshCharacter
          [(some 2, 150), (some 2, 10)]).returned = true :=
  have hself : sampleWorld.IsValidLowLevel (some 1) = true := by
    simp [World.IsValidLowLevel, sampleWorld]
  have hatt : ∀ a ∈ [((some 2 : PawnPtr), (150 : ℚ)), (some 2, 10)],
      sampleWorld.IsValidLowLevel a.1 = true := by
    intro a ha
    simp only [List.mem_cons, List.mem_singleton, List.not_mem_nil, or_false] at ha
    rcases ha with h | h <;> subst h <;> simp [World.IsValidLowLevel, sampleWorld]
  ⟨by norm_num [IsDead, freshCharacter],
   ((TakeAttack_dies_once sampleEngine true sampleWorld 1 freshCharacter
      (by norm_num [IsDead, freshCharacter])).1 [(some 2, 150), (some 2, 10)]).1,
   by norm_num [runTakeAttack, TakeAttack, IsDead, HandleAnyDamage, logName, sampleWorld,
      AddHealth, Die, FMath.Clamp, freshCharacter, sampleEngine],
   hself, hatt,
   ((TakeAttack_dies_once sampleEngine true sampleWorld 1 freshCharacter
      (by norm_num [IsDead, freshCharacter])).1 [(some 2, 150), (some 2, 10)]).2.2
      (fun _ => ⟨hself, hatt⟩)⟩

/-- The dereference in the `UE_LOG` of `HandleAnyDamage`: in a build with logging a lethal
attack with a null attacker stops after `AddHealth`, with `Health = 0` and no `OnDie`. -/
theorem TakeAttack_null_attacker :
    TakeAttack sampleEngine true sampleWorld 1 freshCharacter none 150
      = { val := ({ freshCharacter with Health := 0 }, [Notify.OnHealthChanged 0]),
          returned := false } := by
  norm_num [TakeAttack, IsDead, HandleAnyDamage, logName, sampleWorld, AddHealth, Die,
    FMath.Clamp, freshCharacter, sampleEngine]

/-! ## Theorems: target selection -/

theorem FLT_MAX_pos : (0 : ℚ) < FLT_MAX := by norm_num [FLT_MAX]

theorem eligible_none (E : Engine) (W : World) (loc fwd : FVector) :
    eligible E W loc fwd none = false := by
  simp [eligible, validAlive]

theorem eligible_spec (E : Engine) (W : World) (loc fwd : FVector) (p : PawnPtr)
    (h : eligible E W loc fwd p = true) :
    ∃ i obj hp, p = some i ∧ W.pawn i = some obj ∧ obj.asCharacterBase = some hp ∧ 0 < hp
      ∧ 0 < DotProductToPawn E loc fwd obj ∧ W.IsValidLowLevel p = true
      ∧ 0 < alignment E W loc fwd p := by
  cases p with
  | none => simp [eligible_none] at h
  | some i =>
    cases hobj : W.pawn i with
    | none => simp [eligible, validAlive, hobj] at h
    | some obj =>
      cases hh : obj.asCharacterBase with
      | none => simp [eligible, validAlive, hobj, hh] at h
      | some hp =>
        simp [eligible, validAlive, alignment, hobj, hh] at h
        exact ⟨i, obj, hp, rfl, hobj, hh, h.1, h.2,
          by simp [World.IsValidLowLevel, hobj], by simp [alignment, hobj, h.2]⟩

theorem selectStep_refines (E : Engine) (W : World) (loc fwd : FVector) (b : RunningBest)
    (p : PawnPtr)
    (hp : ∀ i, p = some i → ∃ obj h, W.pawn i = some obj ∧ obj.asCharacterBase = some h) :
    selectStep E W loc fwd b.toSelection p = some (greedyStep E W loc fwd b p).toSelection := by
  cases p with
  | none => simp [selectStep, greedyStep, eligible_none]
  | some i =>
    obtain ⟨obj, h, hobj, hh⟩ := hp i rfl
    by_cases hdead : h ≤ 0
    · have : ¬ 0 < h := not_lt.mpr hdead
      simp [selectStep, greedyStep, eligible, validAlive, hobj, hh, hdead, this]
    · have hpos : 0 < h := not_le.mp hdead
      by_cases hc : DotProductToPawn E loc fwd obj > 0
          ∧ DotProductToPawn E loc fwd obj > b.bestAlignment
          ∧ DistanceToPawn E loc obj < b.bestDistance
      · simp [selectStep, greedyStep, eligible, validAlive, alignment, distance, hobj, hh,
          hdead, hpos, RunningBest.toSelection, hc.1, hc.2.1, hc.2.2]
      · simp only [selectStep, greedyStep, eligible, validAlive, alignment, distance, hobj, hh,
          hdead, hpos, RunningBest.toSelection, if_false]
        simp only [gt_iff_lt, decide_True, Bool.true_and, decide_eq_true_eq] at hc ⊢
        rw [if_neg hc, if_neg hc]

theorem selectLoop_refines (E : Engine) (W : World) (loc fwd : FVector) (l : List PawnPtr) :
    ∀ b : RunningBest, allCharacters W l →
      selectLoop E W loc fwd b.toSelection l
        = some (l.foldl (greedyStep E W loc fwd) b).toSelection := by
  induction l with
  | nil => intro b _; rfl
  | cons p rest ih =>
    intro b hall
    have hp : ∀ i, p = some i → ∃ obj h, W.pawn i = some obj ∧ obj.asCharacterBase = some h :=
      fun i hi => hall i (by simp [hi])
    have hrest : allCharacters W rest := fun i hi => hall i (List.mem_cons_of_mem _ hi)
    simp only [selectLoop, selectStep_refines E W loc fwd b p hp, List.foldl_cons]
    exact ih _ hrest

theorem selectStep_some (E : Engine) (W : World) (loc fwd : FVector) (acc acc' : Selection)
    (p : PawnPtr) (h : selectStep E W loc fwd acc p = some acc') :
    ∀ i, p = some i → ∃ obj hp, W.pawn i = some obj ∧ obj.asCharacterBase = some hp := by
  intro i hi
  subst hi
  cases hobj : W.pawn i with
  | none => simp [selectStep, hobj] at h
  | some obj =>
    cases hh : obj.asCharacterBase with
    | none => simp [selectStep, hobj, hh] at h
    | some hp => exact ⟨obj, hp, rfl, hh⟩

theorem selectLoop_some (E : Engine) (W : World) (loc fwd : FVector) (l : List PawnPtr) :
    ∀ acc sel : Selection, selectLoop E W loc fwd acc l = some sel → allCharacters W l := by
  induction l with
  | nil => intro _ _ _ i hi; simp at hi
  | cons p rest ih =>
    intro acc sel h i hi
    cases hs : selectStep E W loc fwd acc p with
    | none => simp [selectLoop, hs] at h
    | some acc' =>
      simp only [selectLoop, hs] at h
      rcases List.mem_cons.mp hi with hip | hir
      · exact selectStep_some E W loc fwd acc acc' p hs i hip.symm
      · exact ih acc' sel h i hir

theorem greedyStep_inv (E : Engine) (W : World) (loc fwd : FVector) (b : RunningBest)
    (vis : List PawnPtr) (p : PawnPtr) (h : PassInv E W loc fwd b vis) :
    PassInv E W loc fwd (greedyStep E W loc fwd b p) (vis ++ [p]) := by
  obtain ⟨hpar, hbest⟩ := h
  have hle : b.bestDistance ≤ FLT_MAX := by
    rcases hbest with hb | ⟨_, _, _, hd, hlt⟩
    · rw [hb]; exact le_refl _
    · rw [hd]; exact hlt.le
  unfold greedyStep
  by_cases hc : eligible E W loc fwd p = true ∧ alignment E W loc fwd p > b.bestAlignment
      ∧ distance E W loc p < b.bestDistance
  · rw [if_pos hc]
    refine ⟨?_, Or.inr ⟨by simp, hc.1, rfl, rfl, lt_of_lt_of_le hc.2.2 hle⟩⟩
    intro q hq hel hbeat
    simp only [gt_iff_lt] at hbeat hc
    rcases List.mem_append.mp hq with hqv | hqp
    · exact hpar q hqv hel ⟨lt_trans hc.2.1 hbeat.1, lt_trans hbeat.2 hc.2.2⟩
    · have : q = p := by simpa using hqp
      subst this
      exact lt_irrefl _ hbeat.1
  · rw [if_neg hc]
    refine ⟨?_, ?_⟩
    · intro q hq hel hbeat
      rcases List.mem_append.mp hq with hqv | hqp
      · exact hpar q hqv hel hbeat
      · have : q = p := by simpa using hqp
        subst this
        exact hc ⟨hel, hbeat.1, hbeat.2⟩
    · rcases hbest with hb | ⟨hm, hrest⟩
      · exact Or.inl hb
      · exact Or.inr ⟨List.mem_append_left _ hm, hrest⟩

theorem greedyFold_inv (E : Engine) (W : World) (loc fwd : FVector) (l : List PawnPtr) :
    ∀ (b : RunningBest) (vis : List PawnPtr), PassInv E W loc fwd b vis →
      PassInv E W loc fwd (l.foldl (greedyStep E W loc fwd) b) (vis ++ l) := by
  induction l with
  | nil => intro b vis h; simpa using h
  | cons p rest ih =>
    intro b vis h
    have := ih _ _ (greedyStep_inv E W loc fwd b vis p h)
    simpa using this

theorem greedyPass_inv (E : Engine) (W : World) (loc fwd : FVector) (l : List PawnPtr) :
    PassInv E W loc fwd (greedyPass E W loc fwd l) l := by
  have h0 : PassInv E W loc fwd greedyStart [] :=
    ⟨fun q hq => by simp at hq, Or.inl rfl⟩
  simpa [greedyPass] using greedyFold_inv E W loc fwd l greedyStart [] h0

/-- The running best of the pass is no pawn, or an eligible member of the list. -/
theorem greedyPass_best (E : Engine) (W : World) (loc fwd : FVector) (l : List PawnPtr) :
    (greedyPass E W loc fwd l).best = none
    ∨ ((greedyPass E W loc fwd l).best ∈ l
        ∧ eligible E W loc fwd (greedyPass E W loc fwd l).best = true) := by
  rcases (greedyPass_inv E W loc fwd l).2 with hb | ⟨hm, he, _⟩
  · left; rw [hb]; rfl
  · exact Or.inr ⟨hm, he⟩

theorem selectable_iff (E : Engine) (W : World) (loc fwd : FVector) (p : PawnPtr) :
    selectable E W loc fwd p = true
      ↔ eligible E W loc fwd p = true ∧ distance E W loc p < FLT_MAX := by
  simp [selectable]

/-- The running best of the pass is no pawn, or a selectable member of the list. -/
theorem greedyPass_best_selectable (E : Engine) (W : World) (loc fwd : FVector)
    (l : List PawnPtr) :
    (greedyPass E W loc fwd l).best = none
    ∨ ((greedyPass E W loc fwd l).best ∈ l
        ∧ selectable E W loc fwd (greedyPass E W loc fwd l).best = true) := by
  rcases (greedyPass_inv E W loc fwd l).2 with hb | ⟨hm, he, _, _, hlt⟩
  · left; rw [hb]; rfl
  · exact Or.inr ⟨hm, (selectable_iff E W loc fwd _).2 ⟨he, hlt⟩⟩

/-- The pass finds no pawn exactly when no member is selectable. -/
theorem greedyPass_none_iff (E : Engine) (W : World) (loc fwd : FVector) (l : List PawnPtr) :
    (greedyPass E W loc fwd l).best = none ↔ ∀ p ∈ l, selectable E W loc fwd p = false := by
  constructor
  · intro hnone p hp
    by_contra hsel
    have hsel' : selectable E W loc fwd p = true := by simpa using hsel
    obtain ⟨hel, hlt⟩ := (selectable_iff E W loc fwd p).1 hsel'
    obtain ⟨hpar, hbest⟩ := greedyPass_inv E W loc fwd l
    rcases hbest with hb | ⟨_, he, _⟩
    · obtain ⟨_, _, _, _, _, _, _, _, _, hal⟩ := eligible_spec E W loc fwd p hel
      apply hpar p hp hel
      rw [hb]
      refine ⟨?_, hlt⟩
      show alignment E W loc fwd p > -FLT_MAX
      have := FLT_MAX_pos
      linarith
    · rw [hnone, eligible_none] at he
      exact Bool.false_ne_true he
  · intro hno
    rcases greedyPass_best_selectable E W loc fwd l with h | ⟨hm, he⟩
    · exact h
    · rw [hno _ hm] at he
      exact absurd he Bool.false_ne_true

/-- No eligible member beats the running best of the pass on both alignment and distance. -/
theorem greedyPass_pareto (E : Engine) (W : World) (loc fwd : FVector) (l : List PawnPtr)
    (hsome : (greedyPass E W loc fwd l).best ≠ none) :
    ∀ q ∈ l, eligible E W loc fwd q = true →
      ¬ (alignment E W loc fwd q > alignment E W loc fwd (greedyPass E W loc fwd l).best
          ∧ distance E W loc q < distance E W loc (greedyPass E W loc fwd l).best) := by
  obtain ⟨hpar, hbest⟩ := greedyPass_inv E W loc fwd l
  rcases hbest with hb | ⟨_, _, ha, hd, _⟩
  · exact absurd (by rw [hb]; rfl) hsome
  · intro q hq hel
    rw [← ha, ← hd]
    exact hpar q hq hel

/-- A dominant candidate is the one the pass selects. -/
theorem greedyPass_dominant (E : Engine) (W : World) (loc fwd : FVector) (l : List PawnPtr)
    (d : PawnPtr) (hd : dominant E W loc fwd l d) :
    (greedyPass E W loc fwd l).best = d := by
  obtain ⟨hdl, hds, hdom⟩ := hd
  obtain ⟨hde, hdr⟩ := (selectable_iff E W loc fwd d).1 hds
  obtain ⟨hpar, hbest⟩ := greedyPass_inv E W loc fwd l
  rcases hbest with hb | ⟨hm, he, ha, hdist, hlt⟩
  · exfalso
    obtain ⟨_, _, _, _, _, _, _, _, _, hal⟩ := eligible_spec E W loc fwd d hde
    apply hpar d hdl hde
    rw [hb]
    refine ⟨?_, hdr⟩
    show alignment E W loc fwd d > -FLT_MAX
    have := FLT_MAX_pos
    linarith
  · by_contra hne
    obtain ⟨h1, h2⟩ := hdom _ hm ((selectable_iff E W loc fwd _).2 ⟨he, hlt⟩) hne
    exact hpar d hdl hde ⟨by rw [ha]; exact h1, by rw [hdist]; exact h2⟩

theorem updateSelection_eq (W : World) (c : ACPP_CharacterBase) (sel : Selection) :
    updateSelection W c sel =
      if computedResult W sel ≠ c.SelectedPawn then
        ({ c with SelectedPawn := computedResult W sel }, [Notify.OnSelectedPawnChanged])
      else (c, []) := by
  unfold updateSelection computedResult
  by_cases hv : W.IsValidLowLevel sel.ClosestPawn = true
  · simp only [hv, if_true]
  · simp only [hv, Bool.false_eq_true, if_false]
    by_cases hs : c.SelectedPawn = none
    · simp [hs]
    · have hs' : ¬ (none = c.SelectedPawn) := fun h => hs h.symm
      simp [hs, hs']

theorem updateSelection_SelectedPawn (W : World) (c : ACPP_CharacterBase) (sel : Selection) :
    (updateSelection W c sel).1.SelectedPawn = computedResult W sel := by
  rw [updateSelection_eq]
  by_cases h : computedResult W sel = c.SelectedPawn
  · simp [h]
  · simp [h]

theorem updateSelection_DetectedPawns (W : World) (c : ACPP_CharacterBase) (sel : Selection) :
    (updateSelection W c sel).1.DetectedPawns = c.DetectedPawns := by
  rw [updateSelection_eq]
  by_cases h : computedResult W sel = c.SelectedPawn
  · simp [h]
  · simp [h]

theorem computedResult_greedyPass (E : Engine) (W : World) (loc fwd : FVector)
    (l : List PawnPtr) :
    computedResult W (greedyPass E W loc fwd l).toSelection = (greedyPass E W loc fwd l).best := by
  unfold computedResult
  rcases greedyPass_best E W loc fwd l with h | ⟨_, he⟩
  · simp [RunningBest.toSelection, h, World.IsValidLowLevel]
  · obtain ⟨_, _, _, _, _, _, _, _, hv, _⟩ := eligible_spec E W loc fwd _ he
    simp [RunningBest.toSelection, hv]

theorem TrySelectPawn_eq (E : Engine) (W : World) (c : ACPP_CharacterBase)
    (hall : allCharacters W c.DetectedPawns) :
    TrySelectPawn E W c = some (updateSelection W c
      (greedyPass E W c.ActorLocation c.ActorForwardVector c.DetectedPawns).toSelection) := by
  have h := selectLoop_refines E W c.ActorLocation c.ActorForwardVector c.DetectedPawns
    greedyStart hall
  have h0 : greedyStart.toSelection = ({} : Selection) := rfl
  rw [h0] at h
  simp only [TrySelectPawn, h, greedyPass]

theorem TrySelectPawn_returns (E : Engine) (W : World) (c : ACPP_CharacterBase)
    (r : ACPP_CharacterBase × List Notify) (h : TrySelectPawn E W c = some r) :
    allCharacters W c.DetectedPawns := by
  unfold TrySelectPawn at h
  cases hl : selectLoop E W c.ActorLocation c.ActorForwardVector {} c.DetectedPawns with
  | none => simp [hl] at h
  | some sel => exact selectLoop_some E W _ _ _ _ sel hl

theorem TrySelectPawn_SelectedPawn (E : Engine) (W : World) (c : ACPP_CharacterBase)
    (r : ACPP_CharacterBase × List Notify) (h : TrySelectPawn E W c = some r) :
    r.1.SelectedPawn
        = (greedyPass E W c.ActorLocation c.ActorForwardVector c.DetectedPawns).best
    ∧ r.1.DetectedPawns = c.DetectedPawns := by
  have hall := TrySelectPawn_returns E W c r h
  rw [TrySelectPawn_eq E W c hall] at h
  have hr := Option.some.inj h
  rw [← hr, updateSelection_SelectedPawn, computedResult_greedyPass,
    updateSelection_DetectedPawns]
  exact ⟨rfl, rfl⟩

/-- C5: `TrySelectPawn` returns exactly when every non-null sensed pawn is a live
`ACPP_CharacterBase`; whatever the sensed set, the positions and health of its members and the
previous selection, the `SelectedPawn` stored when it returns is null, or a member of
`DetectedPawns` that is non-null, passes `IsValidLowLevel` and has `Health > 0`. -/
theorem TrySelectPawn_never_dead_or_invalid (E : Engine) (W : World) (c : ACPP_CharacterBase) :
    ((∃ r, TrySelectPawn E W c = some r) ↔ allCharacters W c.DetectedPawns)
    ∧ ∀ r, TrySelectPawn E W c = some r →
        r.1.SelectedPawn = none
        ∨ (r.1.SelectedPawn ∈ c.DetectedPawns
            ∧ W.IsValidLowLevel r.1.SelectedPawn = true
            ∧ validAlive W r.1.SelectedPawn = true
            ∧ ∃ i obj h, r.1.SelectedPawn = some i ∧ W.pawn i = some obj
                ∧ obj.asCharacterBase = some h ∧ 0 < h) := by
  refine ⟨⟨fun ⟨r, hr⟩ => TrySelectPawn_returns E W c r hr,
    fun hall => ⟨_, TrySelectPawn_eq E W c hall⟩⟩, ?_⟩
  intro r hr
  rw [(TrySelectPawn_SelectedPawn E W c r hr).1]
  rcases greedyPass_best E W c.ActorLocation c.ActorForwardVector c.DetectedPawns with h | ⟨hm, he⟩
  · exact Or.inl h
  · obtain ⟨i, obj, hp, h1, h2, h3, h4, _, hv, _⟩ := eligible_spec E W _ _ _ he
    refine Or.inr ⟨hm, hv, ?_, i, obj, hp, h1, h2, h3, h4⟩
    simp only [eligible, Bool.and_eq_true] at he
    exact he.1

theorem sample_allCharacters (l : List PawnPtr)
    (hl : ∀ p ∈ l, p = some 1 ∨ p = some 2 ∨ p = some 3 ∨ p = some 5 ∨ p = some 6) :
    allCharacters sampleWorld l := by
  intro i hi
  rcases hl _ hi with h | h | h | h | h <;> cases h <;> simp [sampleWorld]

theorem far_distance : distance sampleEngine levelWithFarPawn {} (some 8) = FLT_MAX := by
  have hs : Rat.sqrt (FLT_MAX * FLT_MAX) = FLT_MAX := by
    rw [Rat.sqrt_eq, abs_of_pos FLT_MAX_pos]
  simp [distance, levelWithFarPawn, DistanceToPawn, FVector.sub, sampleEngine, hs]

theorem far_alignment :
    alignment sampleEngine levelWithFarPawn {} { X := 1 } (some 8) = 1 := by
  have hs : Rat.sqrt (FLT_MAX * FLT_MAX) = FLT_MAX := by
    rw [Rat.sqrt_eq, abs_of_pos FLT_MAX_pos]
  have h := FLT_MAX_pos
  simp [alignment, levelWithFarPawn, DotProductToPawn, FVector.sub, FVector.DotProduct,
    sampleEngine, hs, h.ne']

theorem far_eligible :
    eligible sampleEngine levelWithFarPawn {} { X := 1 } (some 8) = true := by
  have hv : validAlive levelWithFarPawn (some 8) = true := by
    simp [validAlive, levelWithFarPawn]
  simp [eligible, hv, far_alignment]

theorem far_not_selected (b : RunningBest) (hb : b.bestDistance ≤ FLT_MAX) :
    greedyStep sampleEngine levelWithFarPawn {} { X := 1 } b (some 8) = b := by
  unfold greedyStep
  rw [if_neg]
  rintro ⟨_, _, h⟩
  rw [far_distance] at h
  exact absurd h (not_lt.mpr hb)

/-- C6, the claim as stated fails: a sensed set whose only member is a living character straight
ahead (facing alignment 1) at distance `FLT_MAX` holds an eligible candidate, and
`TrySelectPawn` selects nothing, because `DistanceToPawn < ClosestDistance` is false against the
initial `ClosestDistance = FLT_MAX`. -/
theorem TrySelectPawn_misses_candidate_at_FLT_MAX :
    validAlive levelWithFarPawn (some 8) = true
    ∧ alignment sampleEngine levelWithFarPawn {} { X := 1 } (some 8) = 1
    ∧ eligible sampleEngine levelWithFarPawn {} { X := 1 } (some 8) = true
    ∧ distance sampleEngine levelWithFarPawn {} (some 8) = FLT_MAX
    ∧ TrySelectPawn sampleEngine levelWithFarPawn (observer [some 8])
        = some (observer [some 8], [])
    ∧ (observer [some 8]).SelectedPawn = none := by
  refine ⟨by simp [validAlive, levelWithFarPawn], far_alignment, far_eligible, far_distance,
    ?_, rfl⟩
  have hall : allCharacters levelWithFarPawn (observer [some 8]).DetectedPawns := by
    intro i hi
    simp [observer] at hi
    subst hi
    simp [levelWithFarPawn]
  rw [TrySelectPawn_eq _ _ _ hall]
  have hstart : greedyStart.bestDistance ≤ FLT_MAX := by
    rw [show greedyStart.bestDistance = FLT_MAX from rfl]
  have hpass : greedyPass sampleEngine levelWithFarPawn (observer [some 8]).ActorLocation
      (observer [some 8]).ActorForwardVector (observer [some 8]).DetectedPawns
      = greedyStart := by
    have h1 : (observer [some 8]).ActorLocation = ({} : FVector) := rfl
    have h2 : (observer [some 8]).ActorForwardVector = ({ X := 1 } : FVector) := rfl
    have h3 : (observer [some 8]).DetectedPawns = [some 8] := rfl
    rw [h1, h2, h3]
    unfold greedyPass
    rw [List.foldl_cons, List.foldl_nil]
    exact far_not_selected greedyStart hstart
  rw [hpass]
  have hupd : updateSelection levelWithFarPawn (observer [some 8]) greedyStart.toSelection
      = (observer [some 8], []) := by
    have hv : levelWithFarPawn.IsValidLowLevel greedyStart.toSelection.ClosestPawn = false := rfl
    have hs : (observer [some 8]).SelectedPawn = none := rfl
    simp only [updateSelection, hv, hs]
    simp
  rw [hupd]

/-- C6, amended: the `SelectedPawn` stored by `TrySelectPawn` is null if and only if the sensed
set holds no selectable candidate, where selectable means valid, not dead, with facing
alignment `> 0` and with distance `< FLT_MAX` (the initial `ClosestDistance`); when a selectable
candidate exists the stored pawn is a selectable member of the sensed set; both hold for every
iteration order of the sensed set, and the call returns whenever every non-null sensed pawn is a
live character. -/
theorem TrySelectPawn_none_iff_no_selectable (E : Engine) (W : World)
    (c : ACPP_CharacterBase) :
    (allCharacters W c.DetectedPawns → ∃ r, TrySelectPawn E W c = some r)
    ∧ (∀ r, TrySelectPawn E W c = some r →
        (r.1.SelectedPawn = none ↔
          ∀ p ∈ c.DetectedPawns,
            selectable E W c.ActorLocation c.ActorForwardVector p = false)
        ∧ ((∃ p ∈ c.DetectedPawns,
              selectable E W c.ActorLocation c.ActorForwardVector p = true) →
            r.1.SelectedPawn ∈ c.DetectedPawns
            ∧ selectable E W c.ActorLocation c.ActorForwardVector r.1.SelectedPawn = true))
    ∧ (∀ (l' : List PawnPtr) r', l'.Perm c.DetectedPawns →
        TrySelectPawn E W { c with DetectedPawns := l' } = some r' →
        (r'.1.SelectedPawn = none ↔
          ∀ p ∈ c.DetectedPawns,
            selectable E W c.ActorLocation c.ActorForwardVector p = false)
        ∧ (r'.1.SelectedPawn ≠ none →
            r'.1.SelectedPawn ∈ c.DetectedPawns
            ∧ selectable E W c.ActorLocation c.ActorForwardVector r'.1.SelectedPawn
                = true)) := by
  refine ⟨fun hall => ⟨_, TrySelectPawn_eq E W c hall⟩, ?_, ?_⟩
  · intro r hr
    rw [(TrySelectPawn_SelectedPawn E W c r hr).1]
    have hiff := greedyPass_none_iff E W c.ActorLocation c.ActorForwardVector c.DetectedPawns
    refine ⟨hiff, ?_⟩
    rintro ⟨p, hp, hel⟩
    rcases greedyPass_best_selectable E W c.ActorLocation c.ActorForwardVector
      c.DetectedPawns with h | h
    · rw [hiff.1 h p hp] at hel
      exact absurd hel Bool.false_ne_true
    · exact h
  · intro l' r' hperm hr'
    have hsel := (TrySelectPawn_SelectedPawn E W _ r' hr').1
    simp only at hsel
    rw [hsel]
    have hiff := greedyPass_none_iff E W c.ActorLocation c.ActorForwardVector l'
    refine ⟨?_, ?_⟩
    · rw [hiff]
      exact ⟨fun h p hp => h p (hperm.mem_iff.2 hp), fun h p hp => h p (hperm.mem_iff.1 hp)⟩
    · intro hne
      rcases greedyPass_best_selectable E W c.ActorLocation c.ActorForwardVector l' with
        h | ⟨hm, he⟩
      · exact absurd h hne
      · exact ⟨hperm.mem_iff.1 hm, he⟩

/-- Instance of amended C6: the sensed set `1, 2, 3` of the sample level; pawn 1 is selectable,
and the pawn stored is a selectable member of the set. -/
theorem TrySelectPawn_none_iff_no_selectable_witness :
    allCharacters sampleWorld (observer [some 1, some 2, some 3]).DetectedPawns
    ∧ (∃ p ∈ (observer [some 1, some 2, some 3]).DetectedPawns,
        selectable sampleEngine sampleWorld (observer [some 1, some 2, some 3]).ActorLocation
          (observer [some 1, some 2, some 3]).ActorForwardVector p = true)
    ∧ ∃ r, TrySelectPawn sampleEngine sampleWorld (observer [some 1, some 2, some 3]) = some r
        ∧ r.1.SelectedPawn ∈ (observer [some 1, some 2, some 3]).DetectedPawns
        ∧ selectable sampleEngine sampleWorld (observer [some 1, some 2, some 3]).ActorLocation
            (observer [some 1, some 2, some 3]).ActorForwardVector r.1.SelectedPawn = true :=
  have hall : allCharacters sampleWorld (observer [some 1, some 2, some 3]).DetectedPawns :=
    sample_allCharacters _ (by simp [observer])
  have hex : ∃ p ∈ (observer [some 1, some 2, some 3]).DetectedPawns,
      selectable sampleEngine sampleWorld (observer [some 1, some 2, some 3]).ActorLocation
        (observer [some 1, some 2, some 3]).ActorForwardVector p = true :=
    ⟨some 1, by simp [observer], by
      norm_num [selectable, eligible, validAlive, alignment, distance, sampleWorld,
        sampleEngine, DotProductToPawn, DistanceToPawn, FVector.sub, FVector.DotProduct,
        Rat.sqrt, FLT_MAX, observer]⟩
  have hthm := TrySelectPawn_none_iff_no_selectable sampleEngine sampleWorld
      (observer [some 1, some 2, some 3])
  let ⟨r, hr⟩ := hthm.1 hall
  ⟨hall, hex, r, hr, ((hthm.2.1 r hr).2 hex).1, ((hthm.2.1 r hr).2 hex).2⟩

theorem selectLoop_keeps_best (E : Engine) (W : World) (loc fwd : FVector)
    (l : List PawnPtr) (x : PawnPtr) (sel : Selection)
    (hl : selectLoop E W loc fwd {} l = some sel) (hne : sel.ClosestPawn ≠ none)
    (hx : ∀ i, x = some i → ∃ obj h, W.pawn i = some obj ∧ obj.asCharacterBase = some h)
    (hworse : alignment E W loc fwd x ≤ alignment E W loc fwd sel.ClosestPawn
      ∨ distance E W loc sel.ClosestPawn ≤ distance E W loc x) :
    selectLoop E W loc fwd {} (l ++ [x]) = some sel := by
  have hall : allCharacters W l := selectLoop_some E W loc fwd l _ sel hl
  have hall' : allCharacters W (l ++ [x]) := by
    intro i hi
    rcases List.mem_append.mp hi with h | h
    · exact hall i h
    · exact hx i (List.mem_singleton.mp h).symm
  have h0 : greedyStart.toSelection = ({} : Selection) := rfl
  have h1 := selectLoop_refines E W loc fwd l greedyStart hall
  have h2 := selectLoop_refines E W loc fwd (l ++ [x]) greedyStart hall'
  rw [h0] at h1 h2
  rw [h1] at hl
  have hsel : sel = (greedyPass E W loc fwd l).toSelection := (Option.some.inj hl).symm
  rw [h2, List.foldl_append, List.foldl_cons, List.foldl_nil]
  have hbest : sel.ClosestPawn = (greedyPass E W loc fwd l).best := by rw [hsel]; rfl
  rcases (greedyPass_inv E W loc fwd l).2 with hb | ⟨_, _, ha, hd, _⟩
  · exact absurd (by rw [hbest, hb]; rfl) hne
  · have hstep : greedyStep E W loc fwd (greedyPass E W loc fwd l) x
        = greedyPass E W loc fwd l := by
      unfold greedyStep
      rw [if_neg]
      rintro ⟨_, h3, h4⟩
      rw [hbest] at hworse
      rw [ha] at h3
      rw [hd] at h4
      rcases hworse with hw | hw
      · exact absurd h3 (not_lt.mpr hw)
      · exact absurd h4 (not_lt.mpr hw)
    show some (greedyStep E W loc fwd (greedyPass E W loc fwd l) x).toSelection = some sel
    rw [hstep, hsel]

/-- C7: when every non-null sensed pawn is a live character (so that the call returns), the
locals left by the loop of `TrySelectPawn`, and the `SelectedPawn` it stores, are those of the
single left-to-right pass `greedyPass` of the specification (start: no best, lowest alignment,
largest distance; an eligible candidate replaces the best iff strictly better aligned and
strictly nearer); in particular a further candidate whose alignment is not greater than that of
the current best, or whose distance is not smaller, leaves the locals unchanged. -/
theorem TrySelectPawn_refines_greedyPass (E : Engine) (W : World) (c : ACPP_CharacterBase)
    (hall : allCharacters W c.DetectedPawns) :
    selectLoop E W c.ActorLocation c.ActorForwardVector {} c.DetectedPawns
        = some (greedyPass E W c.ActorLocation c.ActorForwardVector
            c.DetectedPawns).toSelection
    ∧ (∃ r, TrySelectPawn E W c = some r
        ∧ r.1 = { c with SelectedPawn :=
            (greedyPass E W c.ActorLocation c.ActorForwardVector c.DetectedPawns).best })
    ∧ (∀ (l : List PawnPtr) (x : PawnPtr) (sel : Selection),
        selectLoop E W c.ActorLocation c.ActorForwardVector {} l = some sel →
        sel.ClosestPawn ≠ none →
        (∀ i, x = some i → ∃ obj h, W.pawn i = some obj ∧ obj.asCharacterBase = some h) →
        (alignment E W c.ActorLocation c.ActorForwardVector x
            ≤ alignment E W c.ActorLocation c.ActorForwardVector sel.ClosestPawn
          ∨ distance E W c.ActorLocation sel.ClosestPawn ≤ distance E W c.ActorLocation x) →
        selectLoop E W c.ActorLocation c.ActorForwardVector {} (l ++ [x]) = some sel) := by
  have h0 : greedyStart.toSelection = ({} : Selection) := rfl
  refine ⟨?_, ⟨_, TrySelectPawn_eq E W c hall, ?_⟩, ?_⟩
  · have h := selectLoop_refines E W c.ActorLocation c.ActorForwardVector c.DetectedPawns
      greedyStart hall
    rw [h0] at h
    exact h
  · rw [updateSelection_eq, computedResult_greedyPass]
    by_cases h : (greedyPass E W c.ActorLocation c.ActorForwardVector c.DetectedPawns).best
        = c.SelectedPawn
    · simp [h]
    · simp [h]
  · intro l x sel hl hne hx hworse
    exact selectLoop_keeps_best E W _ _ l x sel hl hne hx hworse

/-- Instance of C7: the sensed set `1, 2, 3` of the sample level. -/
theorem TrySelectPawn_refines_greedyPass_witness :
    allCharacters sampleWorld (observer [some 1, some 2, some 3]).DetectedPawns
    ∧ selectLoop sampleEngine sampleWorld (observer [some 1, some 2, some 3]).ActorLocation
        (observer [some 1, some 2, some 3]).ActorForwardVector {}
        (observer [some 1, some 2, some 3]).DetectedPawns
      = some (greedyPass sampleEngine sampleWorld
          (observer [some 1, some 2, some 3]).ActorLocation
          (observer [some 1, some 2, some 3]).ActorForwardVector
          (observer [some 1, some 2, some 3]).DetectedPawns).toSelection :=
  ⟨sample_allCharacters _ (by simp [observer]),
   (TrySelectPawn_refines_greedyPass sampleEngine sampleWorld
      (observer [some 1, some 2, some 3]) (sample_allCharacters _ (by simp [observer]))).1⟩

/-- C8, the claim as stated fails: the sensed set `{1, 2}` of the sample level (1 in front at
distance 5 with alignment 1, 2 in front at distance 3 with alignment 1/3) gives pawn 1 when
iterated as `1, 2` and pawn 2 when iterated as `2, 1`. -/
theorem TrySelectPawn_depends_on_order :
    List.Perm [some 1, some 2] [some 2, some 1]
    ∧ TrySelectPawn sampleEngine sampleWorld (observer [some 1, some 2])
        = some ({ observer [some 1, some 2] with SelectedPawn := some 1 },
            [Notify.OnSelectedPawnChanged])
    ∧ TrySelectPawn sampleEngine sampleWorld (observer [some 2, some 1])
        = some ({ observer [some 2, some 1] with SelectedPawn := some 2 },
            [Notify.OnSelectedPawnChanged]) := by
  refine ⟨List.Perm.swap _ _ _, ?_, ?_⟩
  · norm_num [TrySelectPawn, selectLoop, selectStep, sampleWorld, sampleEngine, DistanceToPawn,
      DotProductToPawn, FVector.sub, FVector.DotProduct, updateSelection,
      World.IsValidLowLevel, Rat.sqrt, FLT_MAX, observer]
    decide
  · norm_num [TrySelectPawn, selectLoop, selectStep, sampleWorld, sampleEngine, DistanceToPawn,
      DotProductToPawn, FVector.sub, FVector.DotProduct, updateSelection,
      World.IsValidLowLevel, Rat.sqrt, FLT_MAX, observer]
    decide

/-- C8, amended: whenever it returns, the pawn `TrySelectPawn` stores is a function of the
iteration order of the sensed set, the candidates' positions and health and the owner's position
and forward vector; the previously stored selection has no influence on it. Two iteration
orders of the same sensed set agree on whether a pawn is selected, and on the pawn whenever one
selectable candidate (valid, not dead, in front, at a distance below `FLT_MAX`) is strictly
better aligned and strictly nearer than every other selectable one. The calls return when
every non-null sensed pawn is a live character. -/
theorem TrySelectPawn_order_agreement (E : Engine) (W : World) (c : ACPP_CharacterBase)
    (l' : List PawnPtr) (hperm : l'.Perm c.DetectedPawns) :
    (allCharacters W c.DetectedPawns →
      ∃ r r', TrySelectPawn E W c = some r
        ∧ TrySelectPawn E W { c with DetectedPawns := l' } = some r')
    ∧ (∀ r r', TrySelectPawn E W c = some r →
        TrySelectPawn E W { c with DetectedPawns := l' } = some r' →
        (r.1.SelectedPawn = none ↔ r'.1.SelectedPawn = none)
        ∧ (∀ d, dominant E W c.ActorLocation c.ActorForwardVector c.DetectedPawns d →
            r.1.SelectedPawn = d ∧ r'.1.SelectedPawn = d))
    ∧ (∀ (s : PawnPtr) r r'', TrySelectPawn E W c = some r →
        TrySelectPawn E W { c with SelectedPawn := s } = some r'' →
        r''.1.SelectedPawn = r.1.SelectedPawn) := by
  refine ⟨?_, ?_, ?_⟩
  · intro hall
    have hall' : allCharacters W l' := fun i hi => hall i (hperm.mem_iff.1 hi)
    exact ⟨_, _, TrySelectPawn_eq E W c hall,
      TrySelectPawn_eq E W { c with DetectedPawns := l' } hall'⟩
  · intro r r' hr hr'
    rw [(TrySelectPawn_SelectedPawn E W _ _ hr).1, (TrySelectPawn_SelectedPawn E W _ _ hr').1]
    simp only
    refine ⟨?_, ?_⟩
    · rw [greedyPass_none_iff, greedyPass_none_iff]
      exact ⟨fun h p hp => h p (hperm.mem_iff.1 hp), fun h p hp => h p (hperm.mem_iff.2 hp)⟩
    · intro d hd
      have hd' : dominant E W c.ActorLocation c.ActorForwardVector l' d :=
        ⟨hperm.mem_iff.2 hd.1, hd.2.1, fun p hp => hd.2.2 p (hperm.mem_iff.1 hp)⟩
      exact ⟨greedyPass_dominant E W _ _ _ d hd, greedyPass_dominant E W _ _ _ d hd'⟩
  · intro s r r'' hr hr''
    rw [(TrySelectPawn_SelectedPawn E W _ _ hr).1, (TrySelectPawn_SelectedPawn E W _ _ hr'').1]

theorem sample_dominant :
    dominant sampleEngine sampleWorld {} { X := 1 } [some 5, some 6, some 3] (some 6) := by
  refine ⟨by simp, ?_, ?_⟩
  · norm_num [selectable, eligible, validAlive, alignment, distance, sampleWorld, sampleEngine,
      DotProductToPawn, DistanceToPawn, FVector.sub, FVector.DotProduct, Rat.sqrt, FLT_MAX]
  · intro p hp hsel hne
    simp only [List.mem_cons, List.mem_singleton, List.not_mem_nil, or_false] at hp
    rcases hp with h | h | h
    · subst h
      norm_num [distance, alignment, sampleWorld, sampleEngine, DistanceToPawn,
        DotProductToPawn, FVector.sub, FVector.DotProduct, Rat.sqrt]
    · exact absurd h hne
    · subst h
      norm_num [selectable, eligible, validAlive, alignment, sampleWorld, sampleEngine,
        DotProductToPawn, FVector.sub, FVector.DotProduct, Rat.sqrt] at hsel

/-- Instance of amended C8: the sensed set `{5, 6, 3}` of the sample level in two orders; pawn 6
is dominant and both orders select it. -/
theorem TrySelectPawn_order_agreement_witness :
    List.Perm [some 3, some 6, some 5] (observer [some 5, some 6, some 3]).DetectedPawns
    ∧ allCharacters sampleWorld (observer [some 5, some 6, some 3]).DetectedPawns
    ∧ dominant sampleEngine sampleWorld (observer [some 5, some 6, some 3]).ActorLocation
        (observer [some 5, some 6, some 3]).ActorForwardVector
        (observer [some 5, some 6, some 3]).DetectedPawns (some 6)
    ∧ ∃ r r', TrySelectPawn sampleEngine sampleWorld (observer [some 5, some 6, some 3]) = some r
        ∧ TrySelectPawn sampleEngine sampleWorld
            { observer [some 5, some 6, some 3] with DetectedPawns := [some 3, some 6, some 5] }
          = some r'
        ∧ (r.1.SelectedPawn = none ↔ r'.1.SelectedPawn = none)
        ∧ r.1.SelectedPawn = some 6 ∧ r'.1.SelectedPawn = some 6 :=
  have hperm : List.Perm [some 3, some 6, some 5]
      (observer [some 5, some 6, some 3]).DetectedPawns :=
    ((List.Perm.swap (some 6) (some 3) [some 5]).trans
      ((List.Perm.swap (some 5) (some 3) []).cons (some 6))).trans
      (List.Perm.swap (some 5) (some 6) [some 3])
  have hall : allCharacters sampleWorld (observer [some 5, some 6, some 3]).DetectedPawns :=
    sample_allCharacters _ (by simp [observer])
  have hthm := TrySelectPawn_order_agreement sampleEngine sampleWorld
      (observer [some 5, some 6, some 3]) [some 3, some 6, some 5] hperm
  let ⟨r, r', h1, h2⟩ := hthm.1 hall
  ⟨hperm, hall, sample_dominant, r, r', h1, h2, (hthm.2.1 r r' h1 h2).1,
    ((hthm.2.1 r r' h1 h2).2 (some 6) sample_dominant).1,
    ((hthm.2.1 r r' h1 h2).2 (some 6) sample_dominant).2⟩

/-- C9, the claim as stated fails: with the sensed set iterated as 1 (in front, distance 5,
alignment 1), 2 (in front, distance 3, alignment 1/3), 3 (behind, distance 1), `TrySelectPawn`
selects pawn 1, although pawn 2 is a living candidate in front and strictly nearer. -/
theorem TrySelectPawn_not_the_nearest :
    TrySelectPawn sampleEngine sampleWorld (observer [some 1, some 2, some 3])
        = some ({ observer [some 1, some 2, some 3] with SelectedPawn := some 1 },
            [Notify.OnSelectedPawnChanged])
    ∧ eligible sampleEngine sampleWorld {} { X := 1 } (some 2) = true
    ∧ distance sampleEngine sampleWorld {} (some 1) = 5
    ∧ distance sampleEngine sampleWorld {} (some 2) = 3
    ∧ distance sampleEngine sampleWorld {} (some 3) = 1
    ∧ eligible sampleEngine sampleWorld {} { X := 1 } (some 3) = false := by
  refine ⟨?_, ?_, ?_, ?_, ?_, ?_⟩
  · norm_num [TrySelectPawn, selectLoop, selectStep, sampleWorld, sampleEngine, DistanceToPawn,
      DotProductToPawn, FVector.sub, FVector.DotProduct, updateSelection,
      World.IsValidLowLevel, Rat.sqrt, FLT_MAX, observer]
    decide
  · norm_num [eligible, validAlive, alignment, sampleWorld, sampleEngine, DotProductToPawn,
      FVector.sub, FVector.DotProduct, Rat.sqrt]
  · norm_num [distance, sampleWorld, sampleEngine, DistanceToPawn, FVector.sub, Rat.sqrt]
  · norm_num [distance, sampleWorld, sampleEngine, DistanceToPawn, FVector.sub, Rat.sqrt]
  · norm_num [distance, sampleWorld, sampleEngine, DistanceToPawn, FVector.sub, Rat.sqrt]
  · norm_num [eligible, validAlive, alignment, sampleWorld, sampleEngine, DotProductToPawn,
      FVector.sub, FVector.DotProduct, Rat.sqrt]

/-- C9, amended: when one selectable candidate (valid, living, in front of the character, at a
distance below `FLT_MAX`) is both strictly nearer and strictly better aligned than every other
selectable candidate (the pawn that is "both closest and most in front"), `TrySelectPawn`
selects it, for every iteration order; no other in-front living candidate is then strictly
nearer than the selected pawn. The call returns when every non-null sensed pawn is a live
character. -/
theorem TrySelectPawn_selects_closest_most_in_front (E : Engine) (W : World)
    (c : ACPP_CharacterBase) (d : PawnPtr)
    (hdom : dominant E W c.ActorLocation c.ActorForwardVector c.DetectedPawns d) :
    (allCharacters W c.DetectedPawns → ∃ r, TrySelectPawn E W c = some r)
    ∧ (∀ r, TrySelectPawn E W c = some r →
        r.1.SelectedPawn = d
        ∧ ∀ p ∈ c.DetectedPawns,
            eligible E W c.ActorLocation c.ActorForwardVector p = true →
            ¬ distance E W c.ActorLocation p < distance E W c.ActorLocation r.1.SelectedPawn)
    ∧ (∀ (l' : List PawnPtr) r', l'.Perm c.DetectedPawns →
        TrySelectPawn E W { c with DetectedPawns := l' } = some r' →
        r'.1.SelectedPawn = d) := by
  refine ⟨fun hall => ⟨_, TrySelectPawn_eq E W c hall⟩, ?_, ?_⟩
  · intro r hr
    have hsel : r.1.SelectedPawn = d := by
      rw [(TrySelectPawn_SelectedPawn E W _ _ hr).1]
      exact greedyPass_dominant E W _ _ _ d hdom
    refine ⟨hsel, ?_⟩
    intro p hp hel hlt
    rw [hsel] at hlt
    obtain ⟨_, hdr⟩ := (selectable_iff E W _ _ d).1 hdom.2.1
    by_cases hpd : p = d
    · rw [hpd] at hlt
      exact lt_irrefl _ hlt
    · have hps : selectable E W c.ActorLocation c.ActorForwardVector p = true :=
        (selectable_iff E W _ _ p).2 ⟨hel, lt_trans hlt hdr⟩
      exact lt_asymm hlt (hdom.2.2 p hp hps hpd).2
  · intro l' r' hperm hr'
    have hd' : dominant E W c.ActorLocation c.ActorForwardVector l' d :=
      ⟨hperm.mem_iff.2 hdom.1, hdom.2.1, fun p hp => hdom.2.2 p (hperm.mem_iff.1 hp)⟩
    rw [(TrySelectPawn_SelectedPawn E W _ _ hr').1]
    exact greedyPass_dominant E W _ _ _ d hd'

/-- Instance of amended C9: A = 5 (in front, distance 5, alignment 3/5), B = 6 (straight ahead,
distance 3), C = 3 (behind, distance 1); B is selected. -/
theorem TrySelectPawn_selects_closest_most_in_front_witness :
    allCharacters sampleWorld (observer [some 5, some 6, some 3]).DetectedPawns
    ∧ dominant sampleEngine sampleWorld (observer [some 5, some 6, some 3]).ActorLocation
        (observer [some 5, some 6, some 3]).ActorForwardVector
        (observer [some 5, some 6, some 3]).DetectedPawns (some 6)
    ∧ ∃ r, TrySelectPawn sampleEngine sampleWorld (observer [some 5, some 6, some 3]) = some r
        ∧ r.1.SelectedPawn = some 6 :=
  have hthm := TrySelectPawn_selects_closest_most_in_front sampleEngine sampleWorld
      (observer [some 5, some 6, some 3]) (some 6) sample_dominant
  let ⟨r, h1⟩ := hthm.1 (sample_allCharacters _ (by simp [observer]))
  ⟨sample_allCharacters _ (by simp [observer]), sample_dominant, r, h1, (hthm.2.1 r h1).1⟩

/-- C10: whenever `TrySelectPawn` returns, with `r` the result it computed and `s` the
previously stored selection: if `r ≠ s` then `SelectedPawn` becomes `r` (nothing else changes)
and `OnSelectedPawnChanged` fires exactly once; if `r = s` the character is unchanged and
nothing fires. -/
theorem TrySelectPawn_updates_selection (E : Engine) (W : World) (c : ACPP_CharacterBase) :
    (allCharacters W c.DetectedPawns → ∃ res, TrySelectPawn E W c = some res)
    ∧ ∀ res, TrySelectPawn E W c = some res →
        ∃ sel, selectLoop E W c.ActorLocation c.ActorForwardVector {} c.DetectedPawns = some sel
          ∧ (computedResult W sel ≠ c.SelectedPawn →
              res = ({ c with SelectedPawn := computedResult W sel },
                      [Notify.OnSelectedPawnChanged])
              ∧ res.2.count Notify.OnSelectedPawnChanged = 1)
          ∧ (computedResult W sel = c.SelectedPawn → res = (c, [])) := by
  refine ⟨fun hall => ⟨_, TrySelectPawn_eq E W c hall⟩, ?_⟩
  intro res hres
  unfold TrySelectPawn at hres
  cases hl : selectLoop E W c.ActorLocation c.ActorForwardVector {} c.DetectedPawns with
  | none => simp [hl] at hres
  | some sel =>
    simp only [hl] at hres
    have hres' : res = updateSelection W c sel := (Option.some.inj hres).symm
    refine ⟨sel, rfl, ?_, ?_⟩
    · intro hne
      rw [hres', updateSelection_eq, if_pos hne]
      exact ⟨rfl, by simp⟩
    · intro heq
      rw [hres', updateSelection_eq, if_neg (not_not.mpr heq)]

/-- Instance of C10: the sensed set `1, 2, 3` of the sample level. -/
theorem TrySelectPawn_updates_selection_witness :
    allCharacters sampleWorld (observer [some 1, some 2, some 3]).DetectedPawns
    ∧ ∃ res, TrySelectPawn sampleEngine sampleWorld (observer [some 1, some 2, some 3])
        = some res :=
  ⟨sample_allCharacters _ (by simp [observer]),
   (TrySelectPawn_updates_selection sampleEngine sampleWorld
      (observer [some 1, some 2, some 3])).1 (sample_allCharacters _ (by simp [observer]))⟩

/-- Instance of C5: a sensed set with a dead character, a null pointer and a living character. -/
theorem TrySelectPawn_never_dead_or_invalid_witness :
    (∃ r, TrySelectPawn sampleEngine sampleWorld (observer [some 4, none, some 2]) = some r)
    ∧ ∀ r, TrySelectPawn sampleEngine sampleWorld (observer [some 4, none, some 2]) = some r →
        r.1.SelectedPawn = none
        ∨ (r.1.SelectedPawn ∈ (observer [some 4, none, some 2]).DetectedPawns
            ∧ sampleWorld.IsValidLowLevel r.1.SelectedPawn = true
            ∧ validAlive sampleWorld r.1.SelectedPawn = true
            ∧ ∃ i obj h, r.1.SelectedPawn = some i ∧ sampleWorld.pawn i = some obj
                ∧ obj.asCharacterBase = some h ∧ 0 < h) :=
  ⟨(TrySelectPawn_never_dead_or_invalid sampleEngine sampleWorld
      (observer [some 4, none, some 2])).1.2
      (by intro i hi; simp [observer] at hi; rcases hi with h | h <;> subst h <;>
            simp [sampleWorld]),
   (TrySelectPawn_never_dead_or_invalid sampleEngine sampleWorld
      (observer [some 4, none, some 2])).2⟩

/-! ## Theorems: perception -/

theorem mem_insertSlot (P q : PawnPtr) (l : List PawnPtr) :
    ∀ slot : Nat, q ∈ insertSlot P slot l ↔ q = P ∨ q ∈ l := by
  induction l with
  | nil => intro slot; cases slot <;> simp [insertSlot]
  | cons x rest ih =>
    intro slot
    cases slot with
    | zero => simp [insertSlot]
    | succ k =>
      simp only [insertSlot, List.mem_cons, ih k]
      tauto

theorem mem_TSetAdd (P q : PawnPtr) (slot : Nat) (l : List PawnPtr) :
    q ∈ TSetAdd P slot l ↔ q ∈ l ∨ q = P := by
  unfold TSetAdd
  by_cases h : P ∈ l
  · rw [if_pos h]
    constructor
    · exact Or.inl
    · rintro (hq | hq)
      · exact hq
      · rw [hq]; exact h
  · rw [if_neg h, mem_insertSlot]
    tauto

theorem lostSight_eq (W : World) (c : ACPP_CharacterBase) (P : PawnPtr) (v : Bool)
    (h : lostSight W c P = some v) : v = !stillSeen c P := by
  cases P with
  | none =>
    simp only [lostSight, Option.some.injEq] at h
    simp [stillSeen, ← h]
  | some i =>
    cases hs : c.PawnSensing with
    | none => simp [lostSight, hs] at h
    | some sees =>
      cases hw : W.pawn i with
      | none => simp [lostSight, hs, hw] at h
      | some obj =>
        simp only [lostSight, hs, hw, Option.some.injEq] at h
        simp [stillSeen, hs, ← h]

theorem lostSightLoop_spec (logging : Bool) (W : World) (c : ACPP_CharacterBase)
    (l : List PawnPtr) :
    ∀ (D : List PawnPtr) (b : Bool) (r : List PawnPtr × Bool),
      lostSightLoop logging W c l D b = some r →
      r.1 = D.filter (fun q => !(decide (q ∈ l) && !stillSeen c q))
      ∧ r.2 = (b || l.any (fun q => !stillSeen c q)) := by
  induction l with
  | nil =>
    intro D b r h
    simp only [lostSightLoop, Option.some.injEq] at h
    subst h
    simp
  | cons P rest ih =>
    intro D b r h
    cases hv : lostSight W c P with
    | none => simp [lostSightLoop, hv] at h
    | some v =>
      have hss := lostSight_eq W c P v hv
      cases v with
      | true =>
        have hP : stillSeen c P = false := by simpa using hss
        cases hlog : logName logging W P with
        | none => simp [lostSightLoop, hv, hlog] at h
        | some u =>
          simp only [lostSightLoop, hv, hlog] at h
          obtain ⟨h1, h2⟩ := ih _ _ _ h
          refine ⟨?_, ?_⟩
          · rw [h1, TSetRemove, List.filter_filter]
            apply List.filter_congr
            intro q _
            by_cases hq : q = P
            · subst hq; simp [hP]
            · simp [hq]
          · rw [h2]; simp [hP]
      | false =>
        have hP : stillSeen c P = true := by simpa using hss
        simp only [lostSightLoop, hv] at h
        obtain ⟨h1, h2⟩ := ih _ _ _ h
        refine ⟨?_, ?_⟩
        · rw [h1]
          apply List.filter_congr
          intro q _
          by_cases hq : q = P
          · subst hq; simp [hP]
          · simp [hq]
        · rw [h2]; simp [hP]

theorem lostSightLoop_returns (logging : Bool) (W : World) (c : ACPP_CharacterBase)
    (l : List PawnPtr)
    (hl : ∀ P ∈ l, ∃ v, lostSight W c P = some v
      ∧ (v = true → logName logging W P = some ())) :
    ∀ (D : List PawnPtr) (b : Bool), ∃ r, lostSightLoop logging W c l D b = some r := by
  induction l with
  | nil => intro D b; exact ⟨_, rfl⟩
  | cons P rest ih =>
    intro D b
    obtain ⟨v, hv, hlog⟩ := hl P (by simp)
    have ih' := ih (fun Q hQ => hl Q (List.mem_cons_of_mem _ hQ))
    cases v with
    | true =>
      simp only [lostSightLoop, hv, hlog rfl]
      exact ih' _ _
    | false =>
      simp only [lostSightLoop, hv]
      exact ih' _ _

theorem sightCheckable_step (logging : Bool) (W : World) (c : ACPP_CharacterBase)
    (h : sightCheckable logging W c) :
    ∀ P ∈ c.DetectedPawns, ∃ v, lostSight W c P = some v
      ∧ (v = true → logName logging W P = some ()) := by
  intro P hP
  cases P with
  | none =>
    refine ⟨true, rfl, fun _ => ?_⟩
    cases hlg : logging with
    | false => simp [logName]
    | true => exact absurd hP (h.2 hlg)
  | some i =>
    obtain ⟨hlive, hsens⟩ := h.1 i hP
    cases hs : c.PawnSensing with
    | none => exact absurd hs hsens
    | some sees =>
      cases hw : W.pawn i with
      | none => simp [hw] at hlive
      | some obj =>
        refine ⟨!sees i, by simp [lostSight, hs, hw], fun _ => ?_⟩
        cases logging <;> simp [logName, hw]

theorem filter_stillSeen (c : ACPP_CharacterBase) (l : List PawnPtr) :
    l.filter (fun q => !(decide (q ∈ l) && !stillSeen c q)) = l.filter (stillSeen c) := by
  apply List.filter_congr
  intro q hq
  simp [hq]

theorem TrySelectPawn_trace (E : Engine) (W : World) (c : ACPP_CharacterBase)
    (r : ACPP_CharacterBase × List Notify) (h : TrySelectPawn E W c = some r) :
    r.2 = [] ∨ r.2 = [Notify.OnSelectedPawnChanged] := by
  unfold TrySelectPawn at h
  cases hl : selectLoop E W c.ActorLocation c.ActorForwardVector {} c.DetectedPawns with
  | none => simp [hl] at h
  | some sel =>
    simp only [hl, Option.some.injEq] at h
    rw [← h, updateSelection_eq]
    by_cases hne : computedResult W sel = c.SelectedPawn
    · simp [hne]
    · simp [hne]

theorem TrySelectPawn_empty (E : Engine) (W : World) (c : ACPP_CharacterBase)
    (h : c.DetectedPawns = []) :
    TrySelectPawn E W c
      = some (if c.SelectedPawn ≠ none then
                ({ c with SelectedPawn := none }, [Notify.OnSelectedPawnChanged])
              else (c, [])) := by
  simp only [TrySelectPawn, h, selectLoop, updateSelection, World.IsValidLowLevel]
  simp

theorem CheckForLostSight_alive (logging : Bool) (E : Engine) (W : World)
    (c : ACPP_CharacterBase) (ha : IsDead c = false)
    (r : ACPP_CharacterBase × List Notify) (h : CheckForLostSight logging E W c = some r) :
    ((c.DetectedPawns.any (fun q => !stillSeen c q) = true
        ∨ c.DetectedPawns.filter (stillSeen c) = []) →
      ∃ r₀, TrySelectPawn E W { c with DetectedPawns := c.DetectedPawns.filter (stillSeen c) }
          = some r₀
        ∧ r = (r₀.1, r₀.2 ++ [Notify.OnDetectedPawnsChanged]))
    ∧ (c.DetectedPawns.any (fun q => !stillSeen c q) = false
        ∧ c.DetectedPawns.filter (stillSeen c) ≠ [] → r = (c, [])) := by
  unfold CheckForLostSight at h
  simp only [ha, Bool.false_eq_true, if_false] at h
  cases hl : lostSightLoop logging W c c.DetectedPawns c.DetectedPawns false with
  | none => simp [hl] at h
  | some res =>
    obtain ⟨h1, h2⟩ := lostSightLoop_spec logging W c _ _ _ _ hl
    rw [filter_stillSeen] at h1
    simp only [Bool.false_or] at h2
    obtain ⟨D, b⟩ := res
    simp only at h1 h2
    subst h1 h2
    simp only [hl] at h
    refine ⟨?_, ?_⟩
    · intro htrig
      have hcond : (c.DetectedPawns.any (fun q => !stillSeen c q)
          || (c.DetectedPawns.filter (stillSeen c)).isEmpty) = true := by
        rcases htrig with h' | h'
        · rw [h']; rfl
        · rw [h']; simp
      rw [if_pos hcond] at h
      cases ht : TrySelectPawn E W
          { c with DetectedPawns := c.DetectedPawns.filter (stillSeen c) } with
      | none => simp [ht] at h
      | some r₀ =>
        simp only [ht, Option.some.injEq] at h
        exact ⟨r₀, rfl, h.symm⟩
    · rintro ⟨hno, hne⟩
      have hcond : ¬ ((c.DetectedPawns.any (fun q => !stillSeen c q)
          || (c.DetectedPawns.filter (stillSeen c)).isEmpty) = true) := by
        rw [hno, Bool.false_or, List.isEmpty_iff]
        exact hne
      rw [if_neg hcond] at h
      have hall : c.DetectedPawns.filter (stillSeen c) = c.DetectedPawns := by
        rw [List.filter_eq_self]
        intro q hq
        by_contra hq'
        have : c.DetectedPawns.any (fun q => !stillSeen c q) = true := by
          rw [List.any_eq_true]
          exact ⟨q, hq, by simpa using hq'⟩
        rw [hno] at this
        exact Bool.false_ne_true this
      rw [hall] at h
      exact (Option.some.inj h).symm

theorem CheckForLostSight_returns (logging : Bool) (E : Engine) (W : World)
    (c : ACPP_CharacterBase) (hs : sightCheckable logging W c)
    (hall : allCharacters W (c.DetectedPawns.filter (stillSeen c))) :
    ∃ r, CheckForLostSight logging E W c = some r := by
  unfold CheckForLostSight
  by_cases hd : IsDead c = true
  · exact ⟨_, by rw [if_pos hd]⟩
  · rw [if_neg hd]
    obtain ⟨res, hl⟩ := lostSightLoop_returns logging W c c.DetectedPawns
      (sightCheckable_step logging W c hs) c.DetectedPawns false
    obtain ⟨h1, _⟩ := lostSightLoop_spec logging W c _ _ _ _ hl
    rw [filter_stillSeen] at h1
    obtain ⟨D, b⟩ := res
    simp only at h1
    subst h1
    simp only [hl]
    split
    · have ht := TrySelectPawn_eq E W
        { c with DetectedPawns := c.DetectedPawns.filter (stillSeen c) } hall
      simp only [ht]
      exact ⟨_, rfl⟩
    · exact ⟨_, rfl⟩

theorem count_changed_of_TrySelectPawn (E : Engine) (W : World) (c : ACPP_CharacterBase)
    (r₀ : ACPP_CharacterBase × List Notify) (h : TrySelectPawn E W c = some r₀) :
    (r₀.2 ++ [Notify.OnDetectedPawnsChanged]).count Notify.OnDetectedPawnsChanged = 1 := by
  rcases TrySelectPawn_trace E W c r₀ h with ht | ht <;> rw [ht] <;> decide

/-- C11: a dead owner's `CheckForLostSight` changes nothing and fires nothing. For a living
owner the call returns whenever no dereference can fail, and whenever it returns: the sensed set
is the previous one filtered (in order) to the non-null members that `CouldSeePawn` still sees;
if a member was removed or the result is empty, `TrySelectPawn` runs once on the filtered set
and `OnDetectedPawnsChanged` fires once after it, otherwise nothing runs and nothing changes;
and when the result is empty the stored selection ends as null, `OnSelectedPawnChanged` being
fired exactly when it was not null before. -/
theorem CheckForLostSight_revalidates (logging : Bool) (E : Engine) (W : World)
    (c : ACPP_CharacterBase) :
    (IsDead c = true → CheckForLostSight logging E W c = some (c, []))
    ∧ (IsDead c = false →
        (sightCheckable logging W c →
          allCharacters W (c.DetectedPawns.filter (stillSeen c)) →
          ∃ r, CheckForLostSight logging E W c = some r)
        ∧ ∀ r, CheckForLostSight logging E W c = some r →
            r.1.DetectedPawns = c.DetectedPawns.filter (stillSeen c)
            ∧ ((c.DetectedPawns.any (fun q => !stillSeen c q) = true
                  ∨ c.DetectedPawns.filter (stillSeen c) = []) →
                (∃ r₀, TrySelectPawn E W
                      { c with DetectedPawns := c.DetectedPawns.filter (stillSeen c) } = some r₀
                    ∧ r = (r₀.1, r₀.2 ++ [Notify.OnDetectedPawnsChanged]))
                ∧ r.2.count Notify.OnDetectedPawnsChanged = 1)
            ∧ (c.DetectedPawns.any (fun q => !stillSeen c q) = false
                ∧ c.DetectedPawns.filter (stillSeen c) ≠ [] → r = (c, []))
            ∧ (c.DetectedPawns.filter (stillSeen c) = [] →
                r.1.SelectedPawn = none
                ∧ r.2 = (if c.SelectedPawn ≠ none then [Notify.OnSelectedPawnChanged] else [])
                          ++ [Notify.OnDetectedPawnsChanged])) := by
  refine ⟨fun hd => by simp [CheckForLostSight, hd], fun ha => ⟨?_, ?_⟩⟩
  · exact fun hs hall => CheckForLostSight_returns logging E W c hs hall
  · intro r hr
    obtain ⟨htrig, hquiet⟩ := CheckForLostSight_alive logging E W c ha r hr
    have hD : r.1.DetectedPawns = c.DetectedPawns.filter (stillSeen c) := by
      by_cases hq : c.DetectedPawns.any (fun q => !stillSeen c q) = true
          ∨ c.DetectedPawns.filter (stillSeen c) = []
      · obtain ⟨r₀, h0, hr0⟩ := htrig hq
        rw [hr0]
        exact (TrySelectPawn_SelectedPawn E W _ r₀ h0).2
      · have hq' : c.DetectedPawns.any (fun q => !stillSeen c q) = false
            ∧ c.DetectedPawns.filter (stillSeen c) ≠ [] := by
          constructor
          · cases hb : c.DetectedPawns.any (fun q => !stillSeen c q)
            · rfl
            · exact absurd (Or.inl hb) hq
          · exact fun h' => hq (Or.inr h')
        rw [hquiet hq']
        symm
        rw [List.filter_eq_self]
        intro q hqm
        by_contra hs
        have : c.DetectedPawns.any (fun q => !stillSeen c q) = true := by
          rw [List.any_eq_true]
          exact ⟨q, hqm, by simpa using hs⟩
        rw [hq'.1] at this
        exact Bool.false_ne_true this
    refine ⟨hD, ?_, hquiet, ?_⟩
    · intro hq
      obtain ⟨r₀, h0, hr0⟩ := htrig hq
      refine ⟨⟨r₀, h0, hr0⟩, ?_⟩
      rw [hr0]
      exact count_changed_of_TrySelectPawn E W _ r₀ h0
    · intro hempty
      obtain ⟨r₀, h0, hr0⟩ := htrig (Or.inr hempty)
      rw [TrySelectPawn_empty E W _ (by simpa using hempty)] at h0
      have h0' := Option.some.inj h0
      rw [hr0, ← h0']
      by_cases hsel : c.SelectedPawn = none
      · simp [hsel]
      · simp [hsel]

/-- Instance of C11: a living character sensing the pawns 1 and 3 of the sample level, of
which only 1 is still seen. -/
theorem CheckForLostSight_revalidates_witness :
    IsDead (watcher (fun i => decide (i = 1)) [some 1, some 3] none) = false
    ∧ ∃ r, CheckForLostSight true sampleEngine sampleWorld
        (watcher (fun i => decide (i = 1)) [some 1, some 3] none) = some r :=
  have ha : IsDead (watcher (fun i => decide (i = 1)) [some 1, some 3] none) = false := by
    norm_num [IsDead, watcher]
  ⟨ha, ((CheckForLostSight_revalidates true sampleEngine sampleWorld
      (watcher (fun i => decide (i = 1)) [some 1, some 3] none)).2 ha).1
      (by
        refine ⟨?_, ?_⟩
        · intro i hi
          simp [watcher] at hi
          rcases hi with h | h <;> subst h <;> simp [sampleWorld, watcher]
        · intro _; simp [watcher])
      (by
        intro i hi
        simp [watcher, stillSeen, List.filter] at hi
        subst hi
        simp [sampleWorld])⟩

theorem CheckForLostSight_all_seen (logging : Bool) (E : Engine) (W : World)
    (c : ACPP_CharacterBase) (hne : c.DetectedPawns ≠ [])
    (hvis : ∀ p ∈ c.DetectedPawns, stillSeen c p = true ∧ W.IsValidLowLevel p = true) :
    CheckForLostSight logging E W c = some (c, []) := by
  by_cases hd : IsDead c = true
  · simp [CheckForLostSight, hd]
  · have ha : IsDead c = false := by simpa using hd
    have hnonull : none ∉ c.DetectedPawns := by
      intro hn
      have := (hvis none hn).1
      simp [stillSeen] at this
    have hs : sightCheckable logging W c := by
      refine ⟨?_, fun _ => hnonull⟩
      intro i hi
      obtain ⟨hss, hv⟩ := hvis _ hi
      refine ⟨by simpa [World.IsValidLowLevel] using hv, ?_⟩
      intro hnone
      simp [stillSeen, hnone] at hss
    obtain ⟨res, hl⟩ := lostSightLoop_returns logging W c c.DetectedPawns
      (sightCheckable_step logging W c hs) c.DetectedPawns false
    obtain ⟨h1, h2⟩ := lostSightLoop_spec logging W c _ _ _ _ hl
    rw [filter_stillSeen] at h1
    have hfilter : c.DetectedPawns.filter (stillSeen c) = c.DetectedPawns := by
      rw [List.filter_eq_self]
      exact fun q hq => (hvis q hq).1
    have hany : c.DetectedPawns.any (fun q => !stillSeen c q) = false := by
      rw [List.any_eq_false]
      intro q hq
      simp [(hvis q hq).1]
    obtain ⟨D, b⟩ := res
    simp only [hfilter, hany, Bool.false_or] at h1 h2
    subst h1 h2
    have hemp : c.DetectedPawns.isEmpty = false := by
      cases hD : c.DetectedPawns with
      | nil => exact absurd hD hne
      | cons _ _ => rfl
    unfold CheckForLostSight
    simp only [ha, Bool.false_eq_true, if_false, hl, hemp, Bool.or_self]

/-- C12, the claim as stated fails for the empty sensed set: a living character that senses
nothing (every member, vacuously, valid and visible) gets `OnDetectedPawnsChanged` fired by
`CheckForLostSight`, after a run of `TrySelectPawn`. -/
theorem CheckForLostSight_fires_on_empty_set :
    freshCharacter.DetectedPawns = []
    ∧ IsDead freshCharacter = false
    ∧ CheckForLostSight true sampleEngine sampleWorld freshCharacter
        = some (freshCharacter, [Notify.OnDetectedPawnsChanged])
    ∧ TrySelectPawn sampleEngine sampleWorld freshCharacter = some (freshCharacter, []) := by
  have ha : IsDead freshCharacter = false := by norm_num [IsDead, freshCharacter]
  have ht : TrySelectPawn sampleEngine sampleWorld freshCharacter = some (freshCharacter, []) := by
    rw [TrySelectPawn_empty _ _ _ rfl]
    simp [freshCharacter]
  refine ⟨rfl, ha, ?_, ht⟩
  unfold CheckForLostSight
  simp only [ha, Bool.false_eq_true, if_false]
  have hl : lostSightLoop true sampleWorld freshCharacter freshCharacter.DetectedPawns
      freshCharacter.DetectedPawns false = some ([], false) := rfl
  simp only [hl]
  have hc : ({ freshCharacter with DetectedPawns := [] } : ACPP_CharacterBase)
      = freshCharacter := rfl
  simp [hc, ht]

/-- C12, amended: for every non-empty sensed set in which every member is valid and still
visible, `CheckForLostSight` removes no member, runs no re-selection and fires no notification
(the character is unchanged). For the empty sensed set of a living owner it removes nothing
either, but each call runs `TrySelectPawn` and fires `OnDetectedPawnsChanged` once. -/
theorem CheckForLostSight_idempotent_nonempty (logging : Bool) (E : Engine) (W : World)
    (c : ACPP_CharacterBase) :
    (c.DetectedPawns ≠ [] →
      (∀ p ∈ c.DetectedPawns, stillSeen c p = true ∧ W.IsValidLowLevel p = true) →
      CheckForLostSight logging E W c = some (c, []))
    ∧ (c.DetectedPawns = [] → IsDead c = false →
        ∃ r, CheckForLostSight logging E W c = some r
          ∧ r.1.DetectedPawns = []
          ∧ r.1.SelectedPawn = none
          ∧ r.2 = (if c.SelectedPawn ≠ none then [Notify.OnSelectedPawnChanged] else [])
                    ++ [Notify.OnDetectedPawnsChanged]) := by
  refine ⟨fun hne hvis => CheckForLostSight_all_seen logging E W c hne hvis, ?_⟩
  intro hemp ha
  have hs : sightCheckable logging W c := by
    refine ⟨?_, ?_⟩
    · intro i hi; rw [hemp] at hi; simp at hi
    · intro _ hn; rw [hemp] at hn; simp at hn
  have hf : c.DetectedPawns.filter (stillSeen c) = [] := by rw [hemp]; rfl
  obtain ⟨r, hr⟩ := CheckForLostSight_returns logging E W c hs
    (by rw [hf]; intro i hi; simp at hi)
  obtain ⟨r₀, h0, hr0⟩ := (CheckForLostSight_alive logging E W c ha r hr).1 (Or.inr hf)
  have hD := (TrySelectPawn_SelectedPawn E W _ r₀ h0).2
  rw [TrySelectPawn_empty E W _ (by simpa using hf)] at h0
  have h0' := Option.some.inj h0
  refine ⟨r, hr, ?_, ?_, ?_⟩
  · rw [hr0]; simpa [hf] using hD
  · rw [hr0, ← h0']
    by_cases hsel : c.SelectedPawn = none
    · simp [hsel]
    · simp [hsel]
  · rw [hr0, ← h0']
    by_cases hsel : c.SelectedPawn = none
    · simp [hsel]
    · simp [hsel]

/-- Instance of amended C12: a living character that senses the pawns 1 and 2 of the sample
level and still sees both. -/
theorem CheckForLostSight_idempotent_nonempty_witness :
    (watcher (fun _ => true) [some 1, some 2] (some 1)).DetectedPawns ≠ []
    ∧ CheckForLostSight true sampleEngine sampleWorld
        (watcher (fun _ => true) [some 1, some 2] (some 1))
      = some (watcher (fun _ => true) [some 1, some 2] (some 1), []) :=
  ⟨by simp [watcher],
   (CheckForLostSight_idempotent_nonempty true sampleEngine sampleWorld
      (watcher (fun _ => true) [some 1, some 2] (some 1))).1 (by simp [watcher])
      (by
        intro p hp
        simp [watcher] at hp
        rcases hp with h | h <;> subst h <;>
          simp [stillSeen, watcher, World.IsValidLowLevel, sampleWorld])⟩

theorem nodup_insertSlot (P : PawnPtr) (l : List PawnPtr) (hP : P ∉ l) (hl : l.Nodup) :
    ∀ slot : Nat, (insertSlot P slot l).Nodup := by
  induction l with
  | nil => intro slot; cases slot <;> simp [insertSlot]
  | cons x rest ih =>
    intro slot
    have hx : x ∉ rest := (List.nodup_cons.mp hl).1
    have hrest : rest.Nodup := (List.nodup_cons.mp hl).2
    have hPx : P ≠ x := fun h => hP (by simp [h])
    have hPr : P ∉ rest := fun h => hP (List.mem_cons_of_mem _ h)
    cases slot with
    | zero => exact List.nodup_cons.mpr ⟨hP, hl⟩
    | succ k =>
      simp only [insertSlot]
      refine List.nodup_cons.mpr ⟨?_, ih hPr hrest k⟩
      rw [mem_insertSlot]
      rintro (h | h)
      · exact hPx h.symm
      · exact hx h

theorem nodup_TSetAdd (P : PawnPtr) (slot : Nat) (l : List PawnPtr) (hl : l.Nodup) :
    (TSetAdd P slot l).Nodup := by
  unfold TSetAdd
  by_cases h : P ∈ l
  · rw [if_pos h]; exact hl
  · rw [if_neg h]; exact nodup_insertSlot P l h hl slot

theorem OnSeePawn_result (logging : Bool) (slot : Nat) (E : Engine) (W : World)
    (c : ACPP_CharacterBase) (i : Nat) (r : ACPP_CharacterBase × List Notify)
    (h : OnSeePawn logging slot E W c (some i) = some r) :
    ∃ r₀, TrySelectPawn E W
        { c with DetectedPawns := TSetAdd (some i) slot c.DetectedPawns } = some r₀
      ∧ r = (r₀.1, r₀.2 ++ [Notify.OnDetectedPawnsChanged]) := by
  unfold OnSeePawn at h
  cases hlog : logName logging W (some i) with
  | none => simp [hlog] at h
  | some u =>
    cases ht : TrySelectPawn E W
        { c with DetectedPawns := TSetAdd (some i) slot c.DetectedPawns } with
    | none => simp [hlog, ht] at h
    | some r₀ =>
      simp only [hlog, ht, Option.some.injEq] at h
      exact ⟨r₀, rfl, h.symm⟩

theorem OnSeePawn_returns (logging : Bool) (slot : Nat) (E : Engine) (W : World)
    (c : ACPP_CharacterBase) (i : Nat)
    (hall : allCharacters W (TSetAdd (some i) slot c.DetectedPawns)) :
    ∃ r, OnSeePawn logging slot E W c (some i) = some r := by
  obtain ⟨obj, h, hobj, _⟩ := hall i ((mem_TSetAdd _ _ _ _).2 (Or.inr rfl))
  have hlog : logName logging W (some i) = some () := by
    cases logging <;> simp [logName, hobj]
  have ht := TrySelectPawn_eq E W
    { c with DetectedPawns := TSetAdd (some i) slot c.DetectedPawns } hall
  unfold OnSeePawn
  simp only [hlog, ht]
  exact ⟨_, rfl⟩

theorem TrySelectPawn_not_dead (E : Engine) (W : World) (c : ACPP_CharacterBase)
    (r₀ : ACPP_CharacterBase × List Notify) (h : TrySelectPawn E W c = some r₀)
    (A : PawnPtr) (hA : A ≠ none) (hdead : validAlive W A = false) :
    r₀.1.SelectedPawn ≠ A
    ∧ (r₀.1.SelectedPawn = none
        ∨ eligible E W c.ActorLocation c.ActorForwardVector r₀.1.SelectedPawn = true) := by
  rw [(TrySelectPawn_SelectedPawn E W c r₀ h).1]
  rcases greedyPass_best E W c.ActorLocation c.ActorForwardVector c.DetectedPawns with
    hb | ⟨_, he⟩
  · exact ⟨fun h' => hA (by rw [← h', hb]), Or.inl hb⟩
  · refine ⟨fun h' => ?_, Or.inr he⟩
    rw [h'] at he
    simp [eligible, hdead] at he

/-- C13, the claim as stated fails for `CheckForLostSight`: pawn 4 of the sample level is dead
(`Health = 0`), sensed, still seen and selected, and pawn 6 is a living candidate in front; the
`CheckForLostSight` of the living owner removes nothing, runs no re-selection and leaves pawn 4
selected. -/
theorem CheckForLostSight_keeps_dead_selection :
    validAlive sampleWorld (some 4) = false
    ∧ eligible sampleEngine sampleWorld {} { X := 1 } (some 6) = true
    ∧ IsDead (watcher (fun _ => true) [some 4, some 6] (some 4)) = false
    ∧ stillSeen (watcher (fun _ => true) [some 4, some 6] (some 4)) (some 4) = true
    ∧ CheckForLostSight true sampleEngine sampleWorld
        (watcher (fun _ => true) [some 4, some 6] (some 4))
      = some (watcher (fun _ => true) [some 4, some 6] (some 4), [])
    ∧ (watcher (fun _ => true) [some 4, some 6] (some 4)).SelectedPawn = some 4 := by
  refine ⟨?_, ?_, ?_, ?_, ?_, rfl⟩
  · norm_num [validAlive, sampleWorld]
  · norm_num [eligible, validAlive, alignment, sampleWorld, sampleEngine, DotProductToPawn,
      FVector.sub, FVector.DotProduct, Rat.sqrt]
  · norm_num [IsDead, watcher]
  · simp [stillSeen, watcher]
  · apply CheckForLostSight_all_seen
    · simp [watcher]
    · intro p hp
      simp [watcher] at hp
      rcases hp with h | h <;> subst h <;>
        simp [stillSeen, watcher, World.IsValidLowLevel, sampleWorld]

/-- C13, amended: let `A` be a pawn that has died (or is no longer a living character). After
the next `OnSeePawn` of a non-null pawn, and after the next `CheckForLostSight` of a living
owner in which a member is removed or the sensed set ends empty, the stored `SelectedPawn` is
not `A`: it is an eligible candidate or null. A `CheckForLostSight` in which every member is
still seen (and the set is not empty) leaves the stored selection as it was. -/
theorem reselection_drops_dead_selection (logging : Bool) (E : Engine) (W : World)
    (c : ACPP_CharacterBase) (A : PawnPtr) (hA : A ≠ none) (hdead : validAlive W A = false) :
    (∀ (slot i : Nat),
        (allCharacters W (TSetAdd (some i) slot c.DetectedPawns) →
          ∃ r, OnSeePawn logging slot E W c (some i) = some r)
        ∧ ∀ r, OnSeePawn logging slot E W c (some i) = some r →
            r.1.SelectedPawn ≠ A
            ∧ (r.1.SelectedPawn = none
                ∨ eligible E W c.ActorLocation c.ActorForwardVector r.1.SelectedPawn = true))
    ∧ (∀ r, IsDead c = false → CheckForLostSight logging E W c = some r →
        (c.DetectedPawns.any (fun q => !stillSeen c q) = true
          ∨ c.DetectedPawns.filter (stillSeen c) = []) →
        r.1.SelectedPawn ≠ A
        ∧ (r.1.SelectedPawn = none
            ∨ eligible E W c.ActorLocation c.ActorForwardVector r.1.SelectedPawn = true))
    ∧ (∀ r, CheckForLostSight logging E W c = some r →
        c.DetectedPawns.any (fun q => !stillSeen c q) = false
          ∧ c.DetectedPawns.filter (stillSeen c) ≠ [] →
        r.1.SelectedPawn = c.SelectedPawn) := by
  refine ⟨?_, ?_, ?_⟩
  · intro slot i
    refine ⟨OnSeePawn_returns logging slot E W c i, ?_⟩
    intro r hr
    obtain ⟨r₀, h0, hr0⟩ := OnSeePawn_result logging slot E W c i r hr
    rw [hr0]
    exact TrySelectPawn_not_dead E W _ r₀ h0 A hA hdead
  · intro r ha hr htrig
    obtain ⟨r₀, h0, hr0⟩ := (CheckForLostSight_alive logging E W c ha r hr).1 htrig
    rw [hr0]
    exact TrySelectPawn_not_dead E W _ r₀ h0 A hA hdead
  · intro r hr hquiet
    by_cases hd : IsDead c = true
    · simp only [CheckForLostSight, hd, if_true, Option.some.injEq] at hr
      rw [← hr]
    · have ha : IsDead c = false := by simpa using hd
      rw [(CheckForLostSight_alive logging E W c ha r hr).2 hquiet]

/-- Instance of amended C13: pawn 4 of the sample level is dead and selected; the owner also
senses pawn 6 and then sees pawn 1. -/
theorem reselection_drops_dead_selection_witness :
    (some 4 : PawnPtr) ≠ none
    ∧ validAlive sampleWorld (some 4) = false
    ∧ ∃ r, OnSeePawn true 0 sampleEngine sampleWorld
          (watcher (fun _ => true) [some 4, some 6] (some 4)) (some 1) = some r
        ∧ r.1.SelectedPawn ≠ some 4 :=
  have hdead : validAlive sampleWorld (some 4) = false := by norm_num [validAlive, sampleWorld]
  have hthm := (reselection_drops_dead_selection true sampleEngine sampleWorld
      (watcher (fun _ => true) [some 4, some 6] (some 4)) (some 4) (by simp) hdead).1 0 1
  let ⟨r, hr⟩ := hthm.1 (by
      intro i hi
      rw [mem_TSetAdd] at hi
      simp [watcher] at hi
      rcases hi with (h | h) | h <;> subst h <;> simp [sampleWorld])
  ⟨by simp, hdead, r, hr, (hthm.2 r hr).1⟩

/-- C14: `OnSeePawn(nullptr)` changes nothing and fires nothing. For a non-null pawn `P` the
call returns whenever every non-null member of the new sensed set is a live character, and
whenever it returns: the sensed set has exactly the members of the old one and `P` (the very
same list when `P` was already a member, and still without repetition), `TrySelectPawn` has
run once on that set, and `OnDetectedPawnsChanged` is fired once, after it. -/
theorem OnSeePawn_adds_and_reselects (logging : Bool) (slot : Nat) (E : Engine) (W : World)
    (c : ACPP_CharacterBase) :
    OnSeePawn logging slot E W c none = some (c, [])
    ∧ ∀ i : Nat,
        (allCharacters W (TSetAdd (some i) slot c.DetectedPawns) →
          ∃ r, OnSeePawn logging slot E W c (some i) = some r)
        ∧ ∀ r, OnSeePawn logging slot E W c (some i) = some r →
            (∀ q, q ∈ r.1.DetectedPawns ↔ q ∈ c.DetectedPawns ∨ q = some i)
            ∧ (some i ∈ c.DetectedPawns → r.1.DetectedPawns = c.DetectedPawns)
            ∧ (c.DetectedPawns.Nodup → r.1.DetectedPawns.Nodup)
            ∧ (∃ r₀, TrySelectPawn E W
                  { c with DetectedPawns := TSetAdd (some i) slot c.DetectedPawns } = some r₀
                ∧ r = (r₀.1, r₀.2 ++ [Notify.OnDetectedPawnsChanged]))
            ∧ r.2.count Notify.OnDetectedPawnsChanged = 1
            ∧ r.2.getLast? = some Notify.OnDetectedPawnsChanged := by
  refine ⟨rfl, fun i => ⟨OnSeePawn_returns logging slot E W c i, ?_⟩⟩
  intro r hr
  obtain ⟨r₀, h0, hr0⟩ := OnSeePawn_result logging slot E W c i r hr
  have hD : r.1.DetectedPawns = TSetAdd (some i) slot c.DetectedPawns := by
    rw [hr0]
    exact (TrySelectPawn_SelectedPawn E W _ r₀ h0).2
  refine ⟨?_, ?_, ?_, ⟨r₀, h0, hr0⟩, ?_, ?_⟩
  · intro q
    rw [hD, mem_TSetAdd]
  · intro hmem
    rw [hD, TSetAdd, if_pos hmem]
  · intro hnd
    rw [hD]
    exact nodup_TSetAdd _ _ _ hnd
  · rw [hr0]
    exact count_changed_of_TrySelectPawn E W _ r₀ h0
  · rw [hr0]
    simp

/-- Instance of C14: the owner senses the pawns 5 and 3 of the sample level and sees pawn 6. -/
theorem OnSeePawn_adds_and_reselects_witness :
    allCharacters sampleWorld
      (TSetAdd (some 6) 1 (watcher (fun _ => true) [some 5, some 3] none).DetectedPawns)
    ∧ ∃ r, OnSeePawn true 1 sampleEngine sampleWorld
          (watcher (fun _ => true) [some 5, some 3] none) (some 6) = some r
        ∧ r.2.count Notify.OnDetectedPawnsChanged = 1 :=
  have hall : allCharacters sampleWorld
      (TSetAdd (some 6) 1 (watcher (fun _ => true) [some 5, some 3] none).DetectedPawns) := by
    intro i hi
    rw [mem_TSetAdd] at hi
    simp [watcher] at hi
    rcases hi with (h | h) | h <;> subst h <;> simp [sampleWorld]
  have hthm := (OnSeePawn_adds_and_reselects true 1 sampleEngine sampleWorld
      (watcher (fun _ => true) [some 5, some 3] none)).2 6
  let ⟨r, hr⟩ := hthm.1 hall
  ⟨hall, r, hr, (hthm.2 r hr).2.2.2.2.1⟩

/-- C15, the code at the failing inputs: `TrySelectPawn` fails on a sensed set that holds a live
pawn which is not an `ACPP_CharacterBase` (`Cast` returns `nullptr` and `IsDead` is called on
it); in a build with logging `CheckForLostSight` fails on a sensed set that holds `nullptr`
(the `UE_LOG` argument `*Pawn->GetName()` is evaluated right after the test `!Pawn`), while
without logging the null member is removed and the call completes. -/
theorem invalid_handles_are_dereferenced :
    levelWithPlainPawn.IsValidLowLevel (some 7) = true
    ∧ TrySelectPawn sampleEngine levelWithPlainPawn (observer [some 7]) = none
    ∧ TrySelectPawn sampleEngine levelWithPlainPawn (observer [some 1, some 7]) = none
    ∧ IsDead (watcher (fun _ => true) [none, some 1] none) = false
    ∧ CheckForLostSight true sampleEngine sampleWorld
        (watcher (fun _ => true) [none, some 1] none) = none
    ∧ (∃ r, CheckForLostSight false sampleEngine sampleWorld
          (watcher (fun _ => true) [none, some 1] none) = some r
        ∧ r.1.DetectedPawns = [some 1]) := by
  have ha : IsDead (watcher (fun _ => true) [none, some 1] none) = false := by
    norm_num [IsDead, watcher]
  refine ⟨?_, ?_, ?_, ha, ?_, ?_⟩
  · simp [World.IsValidLowLevel, levelWithPlainPawn]
  · simp [TrySelectPawn, selectLoop, selectStep, levelWithPlainPawn, observer]
  · norm_num [TrySelectPawn, selectLoop, selectStep, levelWithPlainPawn, sampleWorld,
      sampleEngine, DistanceToPawn, DotProductToPawn, FVector.sub, FVector.DotProduct,
      Rat.sqrt, FLT_MAX, observer]
  · unfold CheckForLostSight
    simp only [ha, Bool.false_eq_true, if_false]
    simp [watcher, lostSightLoop, lostSight, logName]
  · have hs : sightCheckable false sampleWorld
        (watcher (fun _ => true) [none, some 1] none) := by
      refine ⟨?_, by simp⟩
      intro i hi
      simp [watcher] at hi
      subst hi
      simp [sampleWorld, watcher]
    have hf : (watcher (fun _ => true) [none, some 1] none).DetectedPawns.filter
        (stillSeen (watcher (fun _ => true) [none, some 1] none)) = [some 1] := by
      simp [watcher, stillSeen, List.filter]
    obtain ⟨r, hr⟩ := CheckForLostSight_returns false sampleEngine sampleWorld _ hs
      (by rw [hf]; intro i hi; simp at hi; subst hi; simp [sampleWorld])
    refine ⟨r, hr, ?_⟩
    obtain ⟨r₀, h0, hr0⟩ := (CheckForLostSight_alive false sampleEngine sampleWorld _ ha r hr).1
      (Or.inl (by simp [watcher, stillSeen]))
    rw [hr0]
    have := (TrySelectPawn_SelectedPawn sampleEngine sampleWorld _ r₀ h0).2
    simpa [hf] using this

/-! ## Theorems: player attack state -/

theorem runAttackCalls_bindings (calls : List AttackCall) :
    ∀ s : UCPP_PlayerAttackState,
      (runAttackCalls s calls).MontageEndedBindings
          = s.MontageEndedBindings + successfulEnters calls
      ∧ (runAttackCalls s calls).AnimMontage = s.AnimMontage := by
  induction calls with
  | nil => intro s; simp [runAttackCalls, successfulEnters]
  | cons call rest ih =>
    intro s
    cases call with
    | Enter len =>
      obtain ⟨h1, h2⟩ := ih (s.OnEnter len).1
      simp only [runAttackCalls, successfulEnters, h1, h2]
      by_cases hlen : len ≤ 0
      · simp [UCPP_PlayerAttackState.OnEnter, hlen]
      · simp [UCPP_PlayerAttackState.OnEnter, hlen]
        omega
    | Exit =>
      obtain ⟨h1, h2⟩ := ih s.OnExit.1
      simp only [runAttackCalls, successfulEnters, h1, h2]
      simp [UCPP_PlayerAttackState.OnExit]

/-- C16, the claim as stated fails: after `OnEnter` with a successful playback (length 1)
followed by `OnExit`, the state still holds its `OnMontageEnded` subscription. -/
theorem OnExit_keeps_subscription :
    runAttackCalls {} [AttackCall.Enter 1, AttackCall.Exit]
      = { AnimMontage := none, MontageEndedBindings := 1 }
    ∧ (runAttackCalls {} [AttackCall.Enter 1, AttackCall.Exit]).MontageEndedBindings ≠ 0 := by
  have h : runAttackCalls {} [AttackCall.Enter 1, AttackCall.Exit]
      = { AnimMontage := none, MontageEndedBindings := 1 } := by
    norm_num [runAttackCalls, UCPP_PlayerAttackState.OnEnter, UCPP_PlayerAttackState.OnExit]
  rw [h]
  exact ⟨rfl, by decide⟩

/-- C16, amended: `OnExit` of the attack state releases nothing (the state is unchanged and
only `OnExitEvent` fires). An `OnEnter` whose playback fails (length `≤ 0`) acquires no
`OnMontageEnded` subscription, a successful one acquires exactly one, so after any sequence of
`OnEnter` / `OnExit` calls the state holds one subscription more for each successful `OnEnter`.
A subscription is released only by `OnMontageEnded` for the state's own `AnimMontage`. -/
theorem OnMontageEnded_subscription_lifecycle (s : UCPP_PlayerAttackState) :
    s.OnExit = (s, [StateEvent.OnExitEvent])
    ∧ (∀ len : ℚ, len ≤ 0 → s.OnEnter len = (s, [StateEvent.OnEnterEvent]))
    ∧ (∀ len : ℚ, 0 < len →
        s.OnEnter len
          = ({ s with MontageEndedBindings := s.MontageEndedBindings + 1 },
              [StateEvent.OnEnterEvent]))
    ∧ (∀ calls : List AttackCall,
        (runAttackCalls s calls).MontageEndedBindings
          = s.MontageEndedBindings + successfulEnters calls)
    ∧ (s.OnMontageEnded s.AnimMontage).MontageEndedBindings = s.MontageEndedBindings - 1
    ∧ (∀ Montage, Montage ≠ s.AnimMontage → s.OnMontageEnded Montage = s) := by
  refine ⟨rfl, ?_, ?_, fun calls => (runAttackCalls_bindings calls s).1, ?_, ?_⟩
  · intro len hlen
    simp [UCPP_PlayerAttackState.OnEnter, hlen]
  · intro len hlen
    simp [UCPP_PlayerAttackState.OnEnter, not_le.mpr hlen]
  · simp [UCPP_PlayerAttackState.OnMontageEnded]
  · intro Montage hne
    simp [UCPP_PlayerAttackState.OnMontageEnded, hne]

/-- Instance of amended C16: a failed playback (length 0) and a successful one (length 2) on a
state without subscription. -/
theorem OnMontageEnded_subscription_lifecycle_witness :
    (({} : UCPP_PlayerAttackState).OnEnter 0) = ({}, [StateEvent.OnEnterEvent])
    ∧ (({} : UCPP_PlayerAttackState).OnEnter 2)
        = ({ MontageEndedBindings := 1 }, [StateEvent.OnEnterEvent]) :=
  ⟨(OnMontageEnded_subscription_lifecycle {}).2.1 0 (le_refl 0),
   (OnMontageEnded_subscription_lifecycle {}).2.2.1 2 (by norm_num)⟩

/-! ## Theorems: weapons -/

theorem EquipSelectedWeapon_some (weaponLive : Nat → Bool) (SpawnActor : Nat → Option Nat)
    (c : ACPP_CharacterBase)
    (h : c.Weapons.length = 0
      ∨ (0 ≤ c.CurrentWeaponIndex ∧ c.CurrentWeaponIndex < c.Weapons.length)) :
    ∃ c', EquipSelectedWeapon weaponLive SpawnActor c = some c'
      ∧ c'.CurrentWeaponIndex = c.CurrentWeaponIndex ∧ c'.Weapons = c.Weapons := by
  unfold EquipSelectedWeapon
  generalize hc₁ : (match c.EquippedWeapon with
    | some w => if weaponLive w = true then { c with EquippedWeapon := none } else c
    | none => c) = c₁
  have hI : c₁.CurrentWeaponIndex = c.CurrentWeaponIndex ∧ c₁.Weapons = c.Weapons := by
    rw [← hc₁]
    cases c.EquippedWeapon with
    | none => exact ⟨rfl, rfl⟩
    | some w => by_cases hw : weaponLive w = true <;> simp [hw]
  simp only
  by_cases hn : c₁.Weapons.length > 0
  · rw [if_pos hn]
    rcases h with h0 | hin
    · rw [hI.2] at hn; omega
    · have hin' : 0 ≤ c₁.CurrentWeaponIndex
          ∧ c₁.CurrentWeaponIndex < (c₁.Weapons.length : Int) := by
        rw [hI.1, hI.2]; exact hin
      rw [if_pos hin']
      have hlt : c₁.CurrentWeaponIndex.toNat < c₁.Weapons.length := by omega
      rw [List.getElem?_eq_getElem hlt]
      generalize c₁.Weapons[c₁.CurrentWeaponIndex.toNat] = entry
      cases entry with
      | none => exact ⟨c₁, rfl, hI.1, hI.2⟩
      | some cls =>
        cases hsp : SpawnActor cls with
        | none => simp only [hsp]; exact ⟨c₁, rfl, hI.1, hI.2⟩
        | some w => simp only [hsp]; exact ⟨_, rfl, hI.1, hI.2⟩
  · rw [if_neg hn]
    exact ⟨c₁, rfl, hI.1, hI.2⟩

theorem NextWeapon_nonempty (weaponLive : Nat → Bool) (SpawnActor : Nat → Option Nat)
    (c : ACPP_CharacterBase) (h0 : 0 ≤ c.CurrentWeaponIndex)
    (hn : c.CurrentWeaponIndex < c.Weapons.length) :
    ∃ c', NextWeapon weaponLive SpawnActor c = some c'
      ∧ c'.CurrentWeaponIndex = (c.CurrentWeaponIndex + 1) % (c.Weapons.length : Int)
      ∧ c'.Weapons = c.Weapons := by
  unfold NextWeapon
  by_cases hw : c.CurrentWeaponIndex + 1 > (c.Weapons.length : Int) - 1
  · have hlast : c.CurrentWeaponIndex + 1 = (c.Weapons.length : Int) := by omega
    obtain ⟨c', h1, h2, h3⟩ := EquipSelectedWeapon_some weaponLive SpawnActor
      { c with CurrentWeaponIndex := 0 } (Or.inr ⟨le_refl 0, by dsimp only; omega⟩)
    refine ⟨c', ?_, ?_, h3⟩
    · simp only [hw, if_true]; exact h1
    · rw [h2, hlast, Int.emod_self]
  · obtain ⟨c', h1, h2, h3⟩ := EquipSelectedWeapon_some weaponLive SpawnActor
      { c with CurrentWeaponIndex := c.CurrentWeaponIndex + 1 }
      (Or.inr ⟨by dsimp only; omega, by dsimp only; omega⟩)
    refine ⟨c', ?_, ?_, h3⟩
    · simp only [hw, if_false]; exact h1
    · rw [h2]
      dsimp only
      exact (Int.emod_eq_of_lt (by omega) (by omega)).symm

theorem PrevWeapon_nonempty (weaponLive : Nat → Bool) (SpawnActor : Nat → Option Nat)
    (c : ACPP_CharacterBase) (h0 : 0 ≤ c.CurrentWeaponIndex)
    (hn : c.CurrentWeaponIndex < c.Weapons.length) :
    ∃ c', PrevWeapon weaponLive SpawnActor c = some c'
      ∧ c'.CurrentWeaponIndex
          = (c.CurrentWeaponIndex + (c.Weapons.length : Int) - 1) % (c.Weapons.length : Int)
      ∧ c'.Weapons = c.Weapons := by
  unfold PrevWeapon
  by_cases hw : c.CurrentWeaponIndex - 1 < 0
  · have hfirst : c.CurrentWeaponIndex = 0 := by omega
    obtain ⟨c', h1, h2, h3⟩ := EquipSelectedWeapon_some weaponLive SpawnActor
      { c with CurrentWeaponIndex := (c.Weapons.length : Int) - 1 }
      (Or.inr ⟨by dsimp only; omega, by dsimp only; omega⟩)
    refine ⟨c', ?_, ?_, h3⟩
    · simp only [hw, if_true]; exact h1
    · rw [h2, hfirst, zero_add]
      dsimp only
      exact (Int.emod_eq_of_lt (by omega) (by omega)).symm
  · obtain ⟨c', h1, h2, h3⟩ := EquipSelectedWeapon_some weaponLive SpawnActor
      { c with CurrentWeaponIndex := c.CurrentWeaponIndex - 1 }
      (Or.inr ⟨by dsimp only; omega, by dsimp only; omega⟩)
    refine ⟨c', ?_, ?_, h3⟩
    · simp only [hw, if_false]; exact h1
    · rw [h2]
      dsimp only
      have : c.CurrentWeaponIndex + (c.Weapons.length : Int) - 1
          = (c.CurrentWeaponIndex - 1) + (c.Weapons.length : Int) := by ring
      rw [this, Int.add_emod_self]
      exact (Int.emod_eq_of_lt (by omega) (by omega)).symm

theorem runWeaponCalls_nonempty (weaponLive : Nat → Bool) (SpawnActor : Nat → Option Nat)
    (calls : List WeaponCall) :
    ∀ c : ACPP_CharacterBase, 0 ≤ c.CurrentWeaponIndex →
      c.CurrentWeaponIndex < c.Weapons.length →
      ∃ c', runWeaponCalls weaponLive SpawnActor c calls = some c'
        ∧ 0 ≤ c'.CurrentWeaponIndex ∧ c'.CurrentWeaponIndex < c.Weapons.length
        ∧ c'.Weapons = c.Weapons := by
  induction calls with
  | nil => intro c h0 hn; exact ⟨c, rfl, h0, hn, rfl⟩
  | cons call rest ih =>
    intro c h0 hn
    have hpos : (0 : Int) < c.Weapons.length := by omega
    cases call with
    | Next =>
      obtain ⟨c₁, h1, h2, h3⟩ := NextWeapon_nonempty weaponLive SpawnActor c h0 hn
      have hlo : 0 ≤ c₁.CurrentWeaponIndex := by rw [h2]; exact Int.emod_nonneg _ (by omega)
      have hhi : c₁.CurrentWeaponIndex < c₁.Weapons.length := by
        rw [h2, h3]; exact Int.emod_lt_of_pos _ hpos
      obtain ⟨c', h4, h5, h6, h7⟩ := ih c₁ hlo hhi
      refine ⟨c', by simp only [runWeaponCalls, h1]; exact h4, h5, ?_, ?_⟩
      · rw [← h3]; exact h6
      · rw [h7, h3]
    | Prev =>
      obtain ⟨c₁, h1, h2, h3⟩ := PrevWeapon_nonempty weaponLive SpawnActor c h0 hn
      have hlo : 0 ≤ c₁.CurrentWeaponIndex := by rw [h2]; exact Int.emod_nonneg _ (by omega)
      have hhi : c₁.CurrentWeaponIndex < c₁.Weapons.length := by
        rw [h2, h3]; exact Int.emod_lt_of_pos _ hpos
      obtain ⟨c', h4, h5, h6, h7⟩ := ih c₁ hlo hhi
      refine ⟨c', by simp only [runWeaponCalls, h1]; exact h4, h5, ?_, ?_⟩
      · rw [← h3]; exact h6
      · rw [h7, h3]

theorem NextWeapon_empty (weaponLive : Nat → Bool) (SpawnActor : Nat → Option Nat)
    (c : ACPP_CharacterBase) (hW : c.Weapons = [])
    (hi : c.CurrentWeaponIndex = 0 ∨ c.CurrentWeaponIndex = -1) :
    ∃ c', NextWeapon weaponLive SpawnActor c = some c'
      ∧ c'.CurrentWeaponIndex = 0 ∧ c'.Weapons = [] := by
  unfold NextWeapon
  have hw : c.CurrentWeaponIndex + 1 > ((c.Weapons.length : Int)) - 1 := by
    rw [hW]; simp only [List.length_nil, Nat.cast_zero]; omega
  obtain ⟨c', h1, h2, h3⟩ := EquipSelectedWeapon_some weaponLive SpawnActor
    { c with CurrentWeaponIndex := 0 } (Or.inl (by dsimp only; rw [hW]; rfl))
  refine ⟨c', ?_, h2, by rw [h3]; exact hW⟩
  simp only [hw, if_true]
  exact h1

theorem PrevWeapon_empty (weaponLive : Nat → Bool) (SpawnActor : Nat → Option Nat)
    (c : ACPP_CharacterBase) (hW : c.Weapons = [])
    (hi : c.CurrentWeaponIndex = 0 ∨ c.CurrentWeaponIndex = -1) :
    ∃ c', PrevWeapon weaponLive SpawnActor c = some c'
      ∧ c'.CurrentWeaponIndex = -1 ∧ c'.Weapons = [] := by
  unfold PrevWeapon
  have hw : c.CurrentWeaponIndex - 1 < 0 := by omega
  obtain ⟨c', h1, h2, h3⟩ := EquipSelectedWeapon_some weaponLive SpawnActor
    { c with CurrentWeaponIndex := (c.Weapons.length : Int) - 1 }
    (Or.inl (by dsimp only; rw [hW]; rfl))
  refine ⟨c', ?_, ?_, by rw [h3]; exact hW⟩
  · simp only [hw, if_true]
    exact h1
  · rw [h2]
    dsimp only
    rw [hW]
    rfl

theorem runWeaponCalls_empty (weaponLive : Nat → Bool) (SpawnActor : Nat → Option Nat)
    (calls : List WeaponCall) :
    ∀ c : ACPP_CharacterBase, c.Weapons = [] →
      (c.CurrentWeaponIndex = 0 ∨ c.CurrentWeaponIndex = -1) →
      ∃ c', runWeaponCalls weaponLive SpawnActor c calls = some c'
        ∧ (c'.CurrentWeaponIndex = 0 ∨ c'.CurrentWeaponIndex = -1) ∧ c'.Weapons = [] := by
  induction calls with
  | nil => intro c hW hi; exact ⟨c, rfl, hi, hW⟩
  | cons call rest ih =>
    intro c hW hi
    cases call with
    | Next =>
      obtain ⟨c₁, h1, h2, h3⟩ := NextWeapon_empty weaponLive SpawnActor c hW hi
      obtain ⟨c', h4, h5, h6⟩ := ih c₁ h3 (Or.inl h2)
      exact ⟨c', by simp only [runWeaponCalls, h1]; exact h4, h5, h6⟩
    | Prev =>
      obtain ⟨c₁, h1, h2, h3⟩ := PrevWeapon_empty weaponLive SpawnActor c hW hi
      obtain ⟨c', h4, h5, h6⟩ := ih c₁ h3 (Or.inr h2)
      exact ⟨c', by simp only [runWeaponCalls, h1]; exact h4, h5, h6⟩

/-- C17, the claim as stated fails in its last part: on a character with an empty weapon list
and `CurrentWeaponIndex = 0`, `PrevWeapon` sets the index to `Weapons.Num() - 1 = -1`. -/
theorem PrevWeapon_empty_list_goes_negative :
    freshCharacter.Weapons = []
    ∧ freshCharacter.CurrentWeaponIndex = 0
    ∧ PrevWeapon (fun _ => true) (fun _ => none) freshCharacter
        = some { freshCharacter with CurrentWeaponIndex := -1 }
    ∧ ({ freshCharacter with CurrentWeaponIndex := -1 } : ACPP_CharacterBase).CurrentWeaponIndex
        < 0 := by
  refine ⟨rfl, rfl, ?_, by decide⟩
  simp [PrevWeapon, EquipSelectedWeapon, freshCharacter]

/-- C17, amended: for a non-empty weapon list of length `n` and an index `i` with
`0 ≤ i < n`, `NextWeapon` sets the index to `(i + 1) mod n` and `PrevWeapon` to
`(i + n - 1) mod n`, and after any sequence of such calls every `Weapons[CurrentWeaponIndex]`
lookup of `EquipSelectedWeapon` was in bounds (the calls return) and `0 ≤ CurrentWeaponIndex
< n`. For an empty weapon list and an index starting at 0, `NextWeapon` leaves the index at 0
and `PrevWeapon` sets it to -1; the index stays in `{0, -1}` and `EquipSelectedWeapon` makes
no lookup. -/
theorem weapon_cycling_wraps (weaponLive : Nat → Bool) (SpawnActor : Nat → Option Nat)
    (c : ACPP_CharacterBase) :
    (0 ≤ c.CurrentWeaponIndex → c.CurrentWeaponIndex < c.Weapons.length →
      (∃ c', NextWeapon weaponLive SpawnActor c = some c'
        ∧ c'.CurrentWeaponIndex = (c.CurrentWeaponIndex + 1) % (c.Weapons.length : Int)
        ∧ c'.Weapons = c.Weapons)
      ∧ (∃ c', PrevWeapon weaponLive SpawnActor c = some c'
        ∧ c'.CurrentWeaponIndex
            = (c.CurrentWeaponIndex + (c.Weapons.length : Int) - 1) % (c.Weapons.length : Int)
        ∧ c'.Weapons = c.Weapons)
      ∧ ∀ calls : List WeaponCall,
          ∃ c', runWeaponCalls weaponLive SpawnActor c calls = some c'
            ∧ 0 ≤ c'.CurrentWeaponIndex ∧ c'.CurrentWeaponIndex < c.Weapons.length
            ∧ c'.Weapons = c.Weapons)
    ∧ (c.Weapons = [] → c.CurrentWeaponIndex = 0 →
        (∃ c', NextWeapon weaponLive SpawnActor c = some c' ∧ c'.CurrentWeaponIndex = 0)
        ∧ (∃ c', PrevWeapon weaponLive SpawnActor c = some c' ∧ c'.CurrentWeaponIndex = -1)
        ∧ ∀ calls : List WeaponCall,
            ∃ c', runWeaponCalls weaponLive SpawnActor c calls = some c'
              ∧ (c'.CurrentWeaponIndex = 0 ∨ c'.CurrentWeaponIndex = -1)
              ∧ c'.Weapons = []) := by
  refine ⟨fun h0 hn => ⟨NextWeapon_nonempty weaponLive SpawnActor c h0 hn,
    PrevWeapon_nonempty weaponLive SpawnActor c h0 hn,
    fun calls => runWeaponCalls_nonempty weaponLive SpawnActor calls c h0 hn⟩, ?_⟩
  intro hW hi
  refine ⟨?_, ?_, fun calls => runWeaponCalls_empty weaponLive SpawnActor calls c hW (Or.inl hi)⟩
  · obtain ⟨c', h1, h2, _⟩ := NextWeapon_empty weaponLive SpawnActor c hW (Or.inl hi)
    exact ⟨c', h1, h2⟩
  · obtain ⟨c', h1, h2, _⟩ := PrevWeapon_empty weaponLive SpawnActor c hW (Or.inl hi)
    exact ⟨c', h1, h2⟩

/-- Instance of amended C17: three weapon classes, the last one selected; `NextWeapon` wraps
to index 0. -/
theorem weapon_cycling_wraps_witness :
    ∃ c', NextWeapon (fun _ => true) (fun k => some k)
        { Weapons := [some 10, some 11, some 12], CurrentWeaponIndex := 2 } = some c'
      ∧ c'.CurrentWeaponIndex = 0 :=
  let ⟨c', h1, h2, _⟩ :=
    ((weapon_cycling_wraps (fun _ => true) (fun k => some k)
      { Weapons := [some 10, some 11, some 12], CurrentWeaponIndex := 2 }).1
      (by decide) (by decide)).1
  ⟨c', h1, by rw [h2]; decide⟩

/-! ## Theorems: optimality of the selection -/

theorem greedyStep_mono (E : Engine) (W : World) (loc fwd : FVector) (b : RunningBest)
    (p : PawnPtr) :
    b.bestAlignment ≤ (greedyStep E W loc fwd b p).bestAlignment
    ∧ (greedyStep E W loc fwd b p).bestDistance ≤ b.bestDistance := by
  unfold greedyStep
  split
  · next h => exact ⟨h.2.1.le, h.2.2.le⟩
  · exact ⟨le_refl _, le_refl _⟩

theorem greedyFold_mono (E : Engine) (W : World) (loc fwd : FVector) (l : List PawnPtr) :
    ∀ b : RunningBest,
      b.bestAlignment ≤ (l.foldl (greedyStep E W loc fwd) b).bestAlignment
      ∧ (l.foldl (greedyStep E W loc fwd) b).bestDistance ≤ b.bestDistance := by
  induction l with
  | nil => intro b; exact ⟨le_refl _, le_refl _⟩
  | cons p rest ih =>
    intro b
    obtain ⟨h1, h2⟩ := greedyStep_mono E W loc fwd b p
    obtain ⟨h3, h4⟩ := ih (greedyStep E W loc fwd b p)
    exact ⟨le_trans h1 h3, le_trans h4 h2⟩

/-- A pass over pawns none of which is selectable leaves a running best whose distance is at
most `FLT_MAX` unchanged. -/
theorem greedyFold_no_selectable (E : Engine) (W : World) (loc fwd : FVector)
    (l : List PawnPtr) (hl : ∀ p ∈ l, selectable E W loc fwd p = false) :
    ∀ b : RunningBest, b.bestDistance ≤ FLT_MAX →
      l.foldl (greedyStep E W loc fwd) b = b := by
  induction l with
  | nil => intro b _; rfl
  | cons p rest ih =>
    intro b hb
    have hp : greedyStep E W loc fwd b p = b := by
      unfold greedyStep
      rw [if_neg]
      rintro ⟨h, _, hlt⟩
      have hs : selectable E W loc fwd p = true :=
        (selectable_iff E W loc fwd p).2 ⟨h, lt_of_lt_of_le hlt hb⟩
      rw [hl p (by simp)] at hs
      exact Bool.false_ne_true hs
    rw [List.foldl_cons, hp]
    exact ih (fun q hq => hl q (List.mem_cons_of_mem _ hq)) b hb

/-- The running best of the pass is at least as aligned and at least as near as the first
selectable pawn visited. -/
theorem greedyPass_first_selectable (E : Engine) (W : World) (loc fwd : FVector)
    (pre post : List PawnPtr) (f : PawnPtr)
    (hpre : ∀ p ∈ pre, selectable E W loc fwd p = false)
    (hf : selectable E W loc fwd f = true) :
    alignment E W loc fwd f
        ≤ alignment E W loc fwd (greedyPass E W loc fwd (pre ++ f :: post)).best
    ∧ distance E W loc (greedyPass E W loc fwd (pre ++ f :: post)).best
        ≤ distance E W loc f := by
  obtain ⟨hel, hrange⟩ := (selectable_iff E W loc fwd f).1 hf
  obtain ⟨_, _, _, _, _, _, _, _, _, hal⟩ := eligible_spec E W loc fwd f hel
  have hstart : greedyStart.bestDistance ≤ FLT_MAX := by
    rw [show greedyStart.bestDistance = FLT_MAX from rfl]
  have hstep : greedyStep E W loc fwd greedyStart f
      = { best := f, bestAlignment := alignment E W loc fwd f,
          bestDistance := distance E W loc f } := by
    unfold greedyStep
    rw [if_pos]
    refine ⟨hel, ?_, hrange⟩
    show alignment E W loc fwd f > -FLT_MAX
    have := FLT_MAX_pos
    linarith
  have hfold : greedyPass E W loc fwd (pre ++ f :: post)
      = post.foldl (greedyStep E W loc fwd)
          { best := f, bestAlignment := alignment E W loc fwd f,
            bestDistance := distance E W loc f } := by
    unfold greedyPass
    rw [List.foldl_append, greedyFold_no_selectable E W loc fwd pre hpre greedyStart hstart,
      List.foldl_cons, hstep]
  obtain ⟨hm1, hm2⟩ := greedyFold_mono E W loc fwd post
    { best := f, bestAlignment := alignment E W loc fwd f, bestDistance := distance E W loc f }
  rw [← hfold] at hm1 hm2
  rcases (greedyPass_inv E W loc fwd (pre ++ f :: post)).2 with hb | ⟨_, _, ha, hd, _⟩
  · exfalso
    rw [hb] at hm1
    have h' : alignment E W loc fwd f ≤ -FLT_MAX := hm1
    have := FLT_MAX_pos
    linarith
  · rw [← ha, ← hd]
    exact ⟨hm1, hm2⟩

theorem far_not_selectable :
    selectable sampleEngine levelWithFarPawn {} { X := 1 } (some 8) = false := by
  cases h : selectable sampleEngine levelWithFarPawn {} { X := 1 } (some 8) with
  | false => rfl
  | true =>
    have hlt := ((selectable_iff _ _ _ _ _).1 h).2
    rw [far_distance] at hlt
    exact absurd hlt (lt_irrefl _)

theorem far_level_dominant :
    dominant sampleEngine levelWithFarPawn {} { X := 1 } [some 8, some 2] (some 2) := by
  refine ⟨by simp, ?_, ?_⟩
  · norm_num [selectable, eligible, validAlive, alignment, distance, levelWithFarPawn,
      sampleWorld, sampleEngine, DotProductToPawn, DistanceToPawn, FVector.sub,
      FVector.DotProduct, Rat.sqrt, FLT_MAX]
  · intro p hp hsel hne
    simp only [List.mem_cons, List.mem_singleton, List.not_mem_nil, or_false] at hp
    rcases hp with h | h
    · subst h
      rw [far_not_selectable] at hsel
      exact absurd hsel Bool.false_ne_true
    · exact absurd h hne

/-- C18, the claim as stated fails in its last part: in the sensed set iterated as `8, 2`, pawn 8
(a living character straight ahead, facing alignment 1, at distance `FLT_MAX`) is the first
eligible candidate visited; `DistanceToPawn < ClosestDistance` is false for it against the
initial `ClosestDistance = FLT_MAX`, so pawn 2 (alignment 1/3, distance 3) is selected, and the
selected pawn is less aligned than the first eligible candidate visited. -/
theorem TrySelectPawn_less_aligned_than_first_eligible :
    eligible sampleEngine levelWithFarPawn (observer [some 8, some 2]).ActorLocation
        (observer [some 8, some 2]).ActorForwardVector (some 8) = true
    ∧ TrySelectPawn sampleEngine levelWithFarPawn (observer [some 8, some 2])
        = some ({ observer [some 8, some 2] with SelectedPawn := some 2 },
            [Notify.OnSelectedPawnChanged])
    ∧ alignment sampleEngine levelWithFarPawn (observer [some 8, some 2]).ActorLocation
        (observer [some 8, some 2]).ActorForwardVector (some 8) = 1
    ∧ alignment sampleEngine levelWithFarPawn (observer [some 8, some 2]).ActorLocation
        (observer [some 8, some 2]).ActorForwardVector (some 2) = 1 / 3
    ∧ ¬ (alignment sampleEngine levelWithFarPawn (observer [some 8, some 2]).ActorLocation
          (observer [some 8, some 2]).ActorForwardVector (some 8)
        ≤ alignment sampleEngine levelWithFarPawn (observer [some 8, some 2]).ActorLocation
          (observer [some 8, some 2]).ActorForwardVector (some 2)) := by
  have h1 : (observer [some 8, some 2]).ActorLocation = ({} : FVector) := rfl
  have h2 : (observer [some 8, some 2]).ActorForwardVector = ({ X := 1 } : FVector) := rfl
  have h3 : (observer [some 8, some 2]).DetectedPawns = [some 8, some 2] := rfl
  have ha2 : alignment sampleEngine levelWithFarPawn {} { X := 1 } (some 2) = 1 / 3 := by
    norm_num [alignment, levelWithFarPawn, sampleWorld, sampleEngine, DotProductToPawn,
      FVector.sub, FVector.DotProduct, Rat.sqrt]
  rw [h1, h2]
  refine ⟨far_eligible, ?_, far_alignment, ha2, ?_⟩
  · have hall : allCharacters levelWithFarPawn (observer [some 8, some 2]).DetectedPawns := by
      intro i hi
      rw [h3] at hi
      simp only [List.mem_cons, List.mem_singleton, List.not_mem_nil, or_false,
        Option.some.injEq] at hi
      rcases hi with h | h
      · subst h
        simp [levelWithFarPawn]
      · subst h
        simp [levelWithFarPawn, sampleWorld]
    have hbest : (greedyPass sampleEngine levelWithFarPawn
        (observer [some 8, some 2]).ActorLocation (observer [some 8, some 2]).ActorForwardVector
        (observer [some 8, some 2]).DetectedPawns).best = some 2 := by
      rw [h1, h2, h3]
      exact greedyPass_dominant _ _ _ _ _ _ far_level_dominant
    have hs : (observer [some 8, some 2]).SelectedPawn = none := rfl
    rw [TrySelectPawn_eq _ _ _ hall, updateSelection_eq, computedResult_greedyPass, hbest, hs,
      if_pos (by simp)]
  · rw [far_alignment, ha2]
    norm_num

/-- C18, amended: whenever `TrySelectPawn` selects a pawn, for every iteration order of the
sensed set, no valid, living, in-front member has both a strictly greater facing alignment and a
strictly smaller distance than the selected pawn, and the selected pawn is at least as aligned
and at least as near as the first selectable candidate visited (the first valid, living,
in-front member at a distance below `FLT_MAX`, the initial `ClosestDistance`). The call returns
whenever every non-null sensed pawn is a live character. -/
theorem TrySelectPawn_pareto_optimal (E : Engine) (W : World) (c : ACPP_CharacterBase) :
    (allCharacters W c.DetectedPawns → ∃ r, TrySelectPawn E W c = some r)
    ∧ ∀ r, TrySelectPawn E W c = some r → r.1.SelectedPawn ≠ none →
        (∀ q ∈ c.DetectedPawns,
            eligible E W c.ActorLocation c.ActorForwardVector q = true →
            ¬ (alignment E W c.ActorLocation c.ActorForwardVector q
                  > alignment E W c.ActorLocation c.ActorForwardVector r.1.SelectedPawn
                ∧ distance E W c.ActorLocation q
                  < distance E W c.ActorLocation r.1.SelectedPawn))
        ∧ ∀ (pre post : List PawnPtr) (f : PawnPtr),
            c.DetectedPawns = pre ++ f :: post →
            (∀ p ∈ pre, selectable E W c.ActorLocation c.ActorForwardVector p = false) →
            selectable E W c.ActorLocation c.ActorForwardVector f = true →
            alignment E W c.ActorLocation c.ActorForwardVector f
                ≤ alignment E W c.ActorLocation c.ActorForwardVector r.1.SelectedPawn
            ∧ distance E W c.ActorLocation r.1.SelectedPawn
                ≤ distance E W c.ActorLocation f := by
  refine ⟨fun hall => ⟨_, TrySelectPawn_eq E W c hall⟩, ?_⟩
  intro r hr hne
  have hsel := (TrySelectPawn_SelectedPawn E W c r hr).1
  rw [hsel] at hne ⊢
  refine ⟨greedyPass_pareto E W _ _ _ hne, ?_⟩
  intro pre post f hl hpre hf
  rw [hl]
  exact greedyPass_first_selectable E W _ _ pre post f hpre hf

/-- Instance of amended C18: the sensed set of the sample level iterated as 3 (behind), 2, 1;
pawn 2, the first selectable candidate, is selected, and pawn 1, better aligned but farther,
does not beat it on both counts. -/
theorem TrySelectPawn_pareto_optimal_witness :
    TrySelectPawn sampleEngine sampleWorld (observer [some 3, some 2, some 1])
        = some ({ observer [some 3, some 2, some 1] with SelectedPawn := some 2 },
            [Notify.OnSelectedPawnChanged])
    ∧ (∀ q ∈ (observer [some 3, some 2, some 1]).DetectedPawns,
        eligible sampleEngine sampleWorld (observer [some 3, some 2, some 1]).ActorLocation
            (observer [some 3, some 2, some 1]).ActorForwardVector q = true →
        ¬ (alignment sampleEngine sampleWorld (observer [some 3, some 2, some 1]).ActorLocation
              (observer [some 3, some 2, some 1]).ActorForwardVector q
              > alignment sampleEngine sampleWorld
                  (observer [some 3, some 2, some 1]).ActorLocation
                  (observer [some 3, some 2, some 1]).ActorForwardVector (some 2)
            ∧ distance sampleEngine sampleWorld
                (observer [some 3, some 2, some 1]).ActorLocation q
              < distance sampleEngine sampleWorld
                  (observer [some 3, some 2, some 1]).ActorLocation (some 2)))
    ∧ (∀ p ∈ [some 3], selectable sampleEngine sampleWorld
        (observer [some 3, some 2, some 1]).ActorLocation
        (observer [some 3, some 2, some 1]).ActorForwardVector p = false)
    ∧ selectable sampleEngine sampleWorld (observer [some 3, some 2, some 1]).ActorLocation
        (observer [some 3, some 2, some 1]).ActorForwardVector (some 2) = true
    ∧ alignment sampleEngine sampleWorld (observer [some 3, some 2, some 1]).ActorLocation
          (observer [some 3, some 2, some 1]).ActorForwardVector (some 2)
        ≤ alignment sampleEngine sampleWorld (observer [some 3, some 2, some 1]).ActorLocation
          (observer [some 3, some 2, some 1]).ActorForwardVector (some 2) :=
  have heval : TrySelectPawn sampleEngine sampleWorld (observer [some 3, some 2, some 1])
      = some ({ observer [some 3, some 2, some 1] with SelectedPawn := some 2 },
          [Notify.OnSelectedPawnChanged]) := by
    norm_num [TrySelectPawn, selectLoop, selectStep, sampleWorld, sampleEngine, DistanceToPawn,
      DotProductToPawn, FVector.sub, FVector.DotProduct, updateSelection,
      World.IsValidLowLevel, Rat.sqrt, FLT_MAX, observer]
    decide
  have hpre : ∀ p ∈ [some 3], selectable sampleEngine sampleWorld
      (observer [some 3, some 2, some 1]).ActorLocation
      (observer [some 3, some 2, some 1]).ActorForwardVector p = false := by
    intro p hp
    rw [List.mem_singleton.mp hp]
    norm_num [selectable, eligible, validAlive, alignment, sampleWorld, sampleEngine,
      DotProductToPawn, FVector.sub, FVector.DotProduct, Rat.sqrt, observer]
  have hf : selectable sampleEngine sampleWorld
      (observer [some 3, some 2, some 1]).ActorLocation
      (observer [some 3, some 2, some 1]).ActorForwardVector (some 2) = true := by
    norm_num [selectable, eligible, validAlive, alignment, distance, sampleWorld, sampleEngine,
      DotProductToPawn, DistanceToPawn, FVector.sub, FVector.DotProduct, Rat.sqrt, FLT_MAX,
      observer]
  have hthm := (TrySelectPawn_pareto_optimal sampleEngine sampleWorld
      (observer [some 3, some 2, some 1])).2 _ heval (by simp)
  ⟨heval, hthm.1, hpre, hf, (hthm.2 [some 3] [some 1] (some 2) rfl hpre hf).1⟩

end ArenaFighter
